import Mathlib

/-
Verification of the fixed-timestep rigid-body physics core of the
v0-game-engine repository: a shallow embedding of src/core/physics.py,
src/core/time.py, src/core/scene.py and the two physics-relevant component
structures of src/core/components.py, together with proofs about the
embedded definitions.

Numpy float arrays of length three are embedded as triples of real numbers;
floating-point rounding is idealised as exact real arithmetic.  The string
keyed component dictionary of the source is embedded as one optional field
per physics-relevant component kind (a closed tagged-variant set), and
Python object references are embedded as integer entity ids resolved
against the current store.
-/

set_option maxHeartbeats 1000000

open scoped Classical

noncomputable section

/-- Vector of three real numbers, modelling a numpy array of length 3. -/
structure Vec3 where
  x : ℝ
  y : ℝ
  z : ℝ

namespace Vec3

/-- Componentwise addition, modelling numpy elementwise addition. -/
instance : Add Vec3 := ⟨fun a b => ⟨a.x + b.x, a.y + b.y, a.z + b.z⟩⟩

/-- Componentwise subtraction, modelling numpy elementwise subtraction. -/
instance : Sub Vec3 := ⟨fun a b => ⟨a.x - b.x, a.y - b.y, a.z - b.z⟩⟩

/-- Componentwise negation. -/
instance : Neg Vec3 := ⟨fun a => ⟨-a.x, -a.y, -a.z⟩⟩

/-- Componentwise multiplication, modelling numpy elementwise multiplication
of two arrays. -/
instance : Mul Vec3 := ⟨fun a b => ⟨a.x * b.x, a.y * b.y, a.z * b.z⟩⟩

/-- Multiplication of an array by a scalar, as in numpy array times float. -/
instance : HMul Vec3 ℝ Vec3 := ⟨fun a r => ⟨a.x * r, a.y * r, a.z * r⟩⟩

/-- Division of an array by a scalar, as in numpy array over float. -/
instance : HDiv Vec3 ℝ Vec3 := ⟨fun a r => ⟨a.x / r, a.y / r, a.z / r⟩⟩

/-- Zero vector. -/
instance : Zero Vec3 := ⟨⟨0, 0, 0⟩⟩

/-- Dot product of two vectors, as in np.dot. -/
def dot (a b : Vec3) : ℝ := a.x * b.x + a.y * b.y + a.z * b.z

/-- Euclidean norm, as in np.linalg.norm. -/
def norm (a : Vec3) : ℝ := Real.sqrt (dot a a)

/-- Componentwise clamp, modelling np.clip(v, lo, hi), which numpy documents
as min(hi, max(v, lo)) applied elementwise. -/
def clip (v lo hi : Vec3) : Vec3 :=
  ⟨min hi.x (max v.x lo.x), min hi.y (max v.y lo.y), min hi.z (max v.z lo.z)⟩

/-- Largest component of a vector, as in the Python builtin max applied to a
length-3 array. -/
def maxComp (a : Vec3) : ℝ := max a.x (max a.y a.z)

end Vec3

/-- Transform from src/core/scene.py: position, Euler rotation and scale. -/
structure Transform where
  position : Vec3
  rotation : Vec3
  scale : Vec3

/-- Default Transform from Transform(): zero position and rotation, unit
scale. -/
def Transform.init : Transform :=
  { position := ⟨0, 0, 0⟩, rotation := ⟨0, 0, 0⟩, scale := ⟨1, 1, 1⟩ }

/-- RigidbodyComponent from src/core/components.py. -/
structure RigidbodyComponent where
  mass : ℝ
  use_gravity : Bool
  is_kinematic : Bool
  linear_drag : ℝ
  angular_drag : ℝ
  velocity : Vec3
  angular_velocity : Vec3

/-- Closed set of collider shape kinds; the source stores the kind as one of
the strings box, sphere, capsule, mesh. -/
inductive ColliderType where
  | box
  | sphere
  | capsule
  | mesh
deriving DecidableEq

/-- ColliderComponent from src/core/components.py. -/
structure ColliderComponent where
  collider_type : ColliderType
  size : Vec3
  radius : ℝ
  height : ℝ
  is_trigger : Bool

/-- Entity from src/core/scene.py.  The string-keyed component dictionary is
embedded as one optional field per physics-relevant component kind, and the
parent and children object references as entity ids (arena style). -/
structure Entity where
  id : Nat
  name : String
  transform : Transform
  parent : Option Nat
  children : List Nat
  active : Bool
  rigidbody : Option RigidbodyComponent
  collider : Option ColliderComponent

/-- TimeManager from src/core/time.py.  The wall-clock sampling pair
(time.time() and _last_frame_time) is abstracted into the wall delta that
update receives. -/
structure TimeManager where
  time : ℝ
  delta_time : ℝ
  fixed_delta_time : ℝ
  time_scale : ℝ
  fixed_accumulator : ℝ

namespace TimeManager

/-- Initial TimeManager state from TimeManager.__init__: zero clocks, fixed
step 0.02 and time scale 1. -/
def init : TimeManager :=
  { time := 0
    delta_time := 0
    fixed_delta_time := 0.02
    time_scale := 1
    fixed_accumulator := 0 }

/-- TimeManager.update: scales the frame's wall delta by time_scale, advances
the running clock and adds the scaled delta to the fixed accumulator. -/
def update (tm : TimeManager) (wall_delta : ℝ) : TimeManager :=
  let d := wall_delta * tm.time_scale
  { tm with
    delta_time := d
    time := tm.time + d
    fixed_accumulator := tm.fixed_accumulator + d }

/-- TimeManager.should_fixed_update: when the accumulator has reached the
fixed step it is decremented by one step and the call reports true, otherwise
the state is unchanged and the call reports false. -/
def should_fixed_update (tm : TimeManager) : Bool × TimeManager :=
  if tm.fixed_accumulator ≥ tm.fixed_delta_time then
    (true, { tm with fixed_accumulator := tm.fixed_accumulator - tm.fixed_delta_time })
  else
    (false, tm)

end TimeManager

namespace PhysicsEngine

/-- Gravity vector set in PhysicsEngine.__init__. -/
def gravity : Vec3 := ⟨0, -9.81, 0⟩

/-- CollisionInfo from src/core/physics.py; the two entity references are
embedded as entity ids. -/
structure CollisionInfo where
  entity_a : Nat
  entity_b : Nat
  point : Vec3
  normal : Vec3
  penetration : ℝ

/-- PhysicsEngine._integrate acting on one entity.  The caller guarantees the
rigidbody component is present; an absent component leaves the entity
unchanged (the source would raise a KeyError, which never happens on the
update path). -/
def integrate (e : Entity) (delta_time : ℝ) : Entity :=
  match e.rigidbody with
  | none => e
  | some rigidbody =>
    if rigidbody.is_kinematic then e
    else
      let acceleration := if rigidbody.use_gravity then gravity else (⟨0, 0, 0⟩ : Vec3)
      let v1 := rigidbody.velocity + acceleration * delta_time
      let v2 := v1 * ((1 : ℝ) - rigidbody.linear_drag * delta_time)
      let av2 := rigidbody.angular_velocity * ((1 : ℝ) - rigidbody.angular_drag * delta_time)
      { e with
        rigidbody := some { rigidbody with velocity := v2, angular_velocity := av2 }
        transform := { e.transform with
          position := e.transform.position + v2 * delta_time
          rotation := e.transform.rotation + av2 * delta_time } }

/-- PhysicsEngine._check_box_box: axis-aligned box overlap test.  The callers
guarantee both collider components are present. -/
def check_box_box (entity_a entity_b : Entity) : Option CollisionInfo :=
  match entity_a.collider, entity_b.collider with
  | some collider_a, some collider_b =>
    let pos_a := entity_a.transform.position
    let pos_b := entity_b.transform.position
    let size_a := collider_a.size * entity_a.transform.scale
    let size_b := collider_b.size * entity_b.transform.scale
    let half_a := size_a / (2 : ℝ)
    let half_b := size_b / (2 : ℝ)
    let overlap_x := (half_a.x + half_b.x) - |pos_a.x - pos_b.x|
    let overlap_y := (half_a.y + half_b.y) - |pos_a.y - pos_b.y|
    let overlap_z := (half_a.z + half_b.z) - |pos_a.z - pos_b.z|
    if overlap_x > 0 ∧ overlap_y > 0 ∧ overlap_z > 0 then
      let min_overlap := min overlap_x (min overlap_y overlap_z)
      let normal : Vec3 :=
        if min_overlap = overlap_x then
          ⟨if pos_a.x < pos_b.x then 1 else -1, 0, 0⟩
        else if min_overlap = overlap_y then
          ⟨0, if pos_a.y < pos_b.y then 1 else -1, 0⟩
        else
          ⟨0, 0, if pos_a.z < pos_b.z then 1 else -1⟩
      let point := (pos_a + pos_b) / (2 : ℝ)
      some { entity_a := entity_a.id, entity_b := entity_b.id,
             point := point, normal := normal, penetration := min_overlap }
    else
      none
  | _, _ => none

/-- PhysicsEngine._check_sphere_sphere.  The callers guarantee both collider
components are present. -/
def check_sphere_sphere (entity_a entity_b : Entity) : Option CollisionInfo :=
  match entity_a.collider, entity_b.collider with
  | some collider_a, some collider_b =>
    let pos_a := entity_a.transform.position
    let pos_b := entity_b.transform.position
    let radius_a := collider_a.radius * Vec3.maxComp entity_a.transform.scale
    let radius_b := collider_b.radius * Vec3.maxComp entity_b.transform.scale
    let delta := pos_b - pos_a
    let distance := Vec3.norm delta
    if distance < radius_a + radius_b then
      let normal := if distance > 0 then delta / distance else (⟨0, 1, 0⟩ : Vec3)
      let penetration := (radius_a + radius_b) - distance
      let point := pos_a + normal * radius_a
      some { entity_a := entity_a.id, entity_b := entity_b.id,
             point := point, normal := normal, penetration := penetration }
    else
      none
  | _, _ => none

/-- PhysicsEngine._check_box_sphere: clamps the sphere center into the box
extent to find the closest point.  The callers guarantee both collider
components are present. -/
def check_box_sphere (box_entity sphere_entity : Entity) : Option CollisionInfo :=
  match box_entity.collider, sphere_entity.collider with
  | some box_collider, some sphere_collider =>
    let box_pos := box_entity.transform.position
    let sphere_pos := sphere_entity.transform.position
    let box_size := box_collider.size * box_entity.transform.scale
    let sphere_radius := sphere_collider.radius * Vec3.maxComp sphere_entity.transform.scale
    let half_size := box_size / (2 : ℝ)
    let closest := Vec3.clip (sphere_pos - box_pos) (-half_size) half_size + box_pos
    let delta := sphere_pos - closest
    let distance := Vec3.norm delta
    if distance < sphere_radius then
      let normal := if distance > 0 then delta / distance else (⟨0, 1, 0⟩ : Vec3)
      let penetration := sphere_radius - distance
      some { entity_a := box_entity.id, entity_b := sphere_entity.id,
             point := closest, normal := normal, penetration := penetration }
    else
      none
  | _, _ => none

/-- PhysicsEngine._check_collision: dispatch on the pair of collider shape
kinds; any pairing involving capsule or mesh yields no collision. -/
def check_collision (entity_a entity_b : Entity) : Option CollisionInfo :=
  match entity_a.collider, entity_b.collider with
  | some collider_a, some collider_b =>
    match collider_a.collider_type, collider_b.collider_type with
    | ColliderType.box, ColliderType.box => check_box_box entity_a entity_b
    | ColliderType.sphere, ColliderType.sphere => check_sphere_sphere entity_a entity_b
    | ColliderType.box, ColliderType.sphere => check_box_sphere entity_a entity_b
    | ColliderType.sphere, ColliderType.box => check_box_sphere entity_b entity_a
    | _, _ => none
  | _, _ => none

/-- PhysicsEngine._detect_collisions: an exhaustive pairwise scan over the
given list in index order i < j, skipping a pair when either member lacks a
collider component. -/
def detect_collisions : List Entity → List CollisionInfo
  | [] => []
  | entity_a :: rest =>
    rest.filterMap (fun entity_b =>
      if entity_a.collider.isSome && entity_b.collider.isSome then
        check_collision entity_a entity_b
      else none)
    ++ detect_collisions rest

/-- Mutation of the store object carrying a given id, modelling an in-place
update through a Python object reference. -/
def updateEntity (entities : List Entity) (eid : Nat) (f : Entity → Entity) :
    List Entity :=
  entities.map (fun e => if e.id = eid then f e else e)

/-- Resolution of one entity reference of a CollisionInfo against the current
store. -/
def findEntity (entities : List Entity) (eid : Nat) : Option Entity :=
  entities.find? (fun e => e.id == eid)

/-- PhysicsEngine._resolve_collision: positional correction of half the
penetration on each non-kinematic side, followed by an impulse exchange when
the relative velocity along the contact normal is not separating. -/
def resolve_collision (entities : List Entity) (collision : CollisionInfo) :
    List Entity :=
  match findEntity entities collision.entity_a,
        findEntity entities collision.entity_b with
  | some ea, some eb =>
    match ea.rigidbody, eb.rigidbody with
    | some rigidbody_a, some rigidbody_b =>
      if rigidbody_a.is_kinematic && rigidbody_b.is_kinematic then entities
      else
        let correction := collision.normal * collision.penetration * (0.5 : ℝ)
        let es1 :=
          if rigidbody_a.is_kinematic then entities
          else updateEntity entities collision.entity_a (fun e =>
            { e with transform :=
              { e.transform with position := e.transform.position - correction } })
        let es2 :=
          if rigidbody_b.is_kinematic then es1
          else updateEntity es1 collision.entity_b (fun e =>
            { e with transform :=
              { e.transform with position := e.transform.position + correction } })
        let rel_velocity := rigidbody_b.velocity - rigidbody_a.velocity
        let velocity_along_normal := Vec3.dot rel_velocity collision.normal
        if velocity_along_normal > 0 then es2
        else
          let restitution : ℝ := 0.5
          let impulse_scalar :=
            (-(1 + restitution) * velocity_along_normal) /
              (1 / rigidbody_a.mass + 1 / rigidbody_b.mass)
          let impulse := collision.normal * impulse_scalar
          let es3 :=
            if rigidbody_a.is_kinematic then es2
            else updateEntity es2 collision.entity_a (fun e =>
              match e.rigidbody with
              | some rb =>
                let rb2 := { rb with velocity := rb.velocity - impulse / rigidbody_a.mass }
                { e with rigidbody := some rb2 }
              | none => e)
          let es4 :=
            if rigidbody_b.is_kinematic then es3
            else updateEntity es3 collision.entity_b (fun e =>
              match e.rigidbody with
              | some rb =>
                let rb2 := { rb with velocity := rb.velocity + impulse / rigidbody_b.mass }
                { e with rigidbody := some rb2 }
              | none => e)
          es4
    | _, _ => entities
  | _, _ => entities

/-- Modelled from the spec: SceneManager.get_all_entities is called by
PhysicsEngine.update (src/core/physics.py line 36) but is not defined
anywhere under src/; section 4.1 of the spec specifies the enumeration
(all_active) as every entity currently marked active, in a stable insertion
order.  Embedded as the active-filtered enumeration of the store. -/
def get_all_entities (entities : List Entity) : List Entity :=
  entities.filter (fun e => e.active)

/-- Integration phase of PhysicsEngine.update: _integrate is applied to
exactly the members of rigidbody_entities, the enumerated (active) entities
carrying a rigidbody; the store is represented in place, so every other
entity is returned untouched. -/
def integratePhase (entities : List Entity) (delta_time : ℝ) : List Entity :=
  entities.map (fun e =>
    if e.active && e.rigidbody.isSome then integrate e delta_time else e)

/-- PhysicsEngine.update on a store of entities: collects the enumerated
entities carrying a rigidbody, integrates each of them in place, detects
collisions among the collected list, and resolves each detected pair in
order.  The result is the mutated store together with the collision_pairs
list left on the engine. -/
def update (entities : List Entity) (delta_time : ℝ) :
    List Entity × List CollisionInfo :=
  let es1 := integratePhase entities delta_time
  let rigidbody_entities := (get_all_entities es1).filter (fun e => e.rigidbody.isSome)
  let pairs := detect_collisions rigidbody_entities
  (pairs.foldl resolve_collision es1, pairs)

/-- PhysicsEngine.raycast as implemented in the source: the body is a TODO
stub that always returns None, whatever the scene and the ray. -/
def raycast (entities : List Entity) (origin direction : Vec3)
    (max_distance : ℝ) : Option (Nat × Vec3 × ℝ) :=
  none

end PhysicsEngine

/-- SceneManager from src/core/scene.py.  The entities dictionary is embedded
as an association list keyed by entity id (Python dicts preserve insertion
order), and the root_entities list of object references as a list of ids. -/
structure SceneManager where
  entities : List (Nat × Entity)
  root_entities : List Nat
  next_entity_id : Nat

namespace SceneManager

/-- Empty scene as built by SceneManager.__init__ (or clear). -/
def empty : SceneManager :=
  { entities := [], root_entities := [], next_entity_id := 1 }

/-- SceneManager.get_entity: dictionary lookup, absent ids yield none. -/
def get_entity (sm : SceneManager) (entity_id : Nat) : Option Entity :=
  (sm.entities.find? (fun p => p.1 == entity_id)).map Prod.snd

/-- Mutation of the entity object stored under an id, modelling an in-place
update through a Python object reference. -/
def setEntity (sm : SceneManager) (eid : Nat) (f : Entity → Entity) :
    SceneManager :=
  { sm with entities := sm.entities.map (fun p => if p.1 = eid then (p.1, f p.2) else p) }

/-- SceneManager.create_entity: assigns the next id, registers the entity in
the dictionary, and attaches it to the given parent (Entity.add_child sets
the parent back-reference and appends to the children list) or to the root
list.  Returns the new store and the id of the created entity. -/
def create_entity (sm : SceneManager) (name : String) (parent : Option Nat) :
    SceneManager × Nat :=
  let eid := sm.next_entity_id
  let e : Entity :=
    { id := eid, name := name, transform := Transform.init, parent := parent
      children := [], active := true, rigidbody := none, collider := none }
  let sm1 := { sm with entities := sm.entities ++ [(eid, e)],
                       next_entity_id := sm.next_entity_id + 1 }
  match parent with
  | some pid => (sm1.setEntity pid (fun q => { q with children := q.children ++ [eid] }), eid)
  | none => ({ sm1 with root_entities := sm1.root_entities ++ [eid] }, eid)

/-- Entity.remove_child from src/core/scene.py: when the child is present in
the children list of the parent, its parent reference is cleared and the
first occurrence is removed from the list. -/
def remove_child (sm : SceneManager) (parent_id child_id : Nat) : SceneManager :=
  match sm.get_entity parent_id with
  | none => sm
  | some p =>
    if child_id ∈ p.children then
      (sm.setEntity child_id (fun c => { c with parent := none })).setEntity
        parent_id (fun q => { q with children := q.children.erase child_id })
    else sm

/-- SceneManager.destroy_entity, fuelled to express the recursive traversal
of the children (the Python recursion is unbounded; on a well-formed store a
fuel of sm.entities.length suffices).  Destroys all children first (the
source iterates over a copy of the children list, here the snapshot read
before the fold), then detaches from the parent when one is set, otherwise
from the root list, then removes the id from the dictionary.  An id absent
from the table leaves the state unchanged (the source is only ever handed
entities of the store). -/
def destroyFuel : Nat → SceneManager → Nat → SceneManager
  | 0, sm, _ => sm
  | fuel + 1, sm, eid =>
    match sm.get_entity eid with
    | none => sm
    | some e =>
      let sm1 := e.children.foldl (fun s c => destroyFuel fuel s c) sm
      let sm2 :=
        match (sm1.get_entity eid).bind Entity.parent with
        | some pid => sm1.remove_child pid eid
        | none =>
          if eid ∈ sm1.root_entities then
            { sm1 with root_entities := sm1.root_entities.erase eid }
          else sm1
      { sm2 with entities := sm2.entities.filter (fun p => p.1 != eid) }

/-- SceneManager.destroy_entity with enough fuel for any well-formed store. -/
def destroy_entity (sm : SceneManager) (eid : Nat) : SceneManager :=
  destroyFuel sm.entities.length sm eid

/-- Modelled from the spec: the all_active enumeration of section 4.1 (the
get_all_entities callers rely on it but no definition exists under src/):
every entity currently marked active, in stable insertion order. -/
def all_active (sm : SceneManager) : List Entity :=
  (sm.entities.map Prod.snd).filter (fun e => e.active)

end SceneManager

/-- Rose tree of entity ids, describing the parent and children shape of a
well-formed store (the arena representation of section 9 of the spec). -/
inductive ETree where
  | node : Nat → List ETree → ETree

/-- Id at the root of a tree. -/
def ETree.rootId : ETree → Nat
  | .node i _ => i

/-- Ids of a tree: the root id followed by all descendant ids. -/
def ETree.ids : ETree → List Nat
  | .node i cs => i :: (cs.attach.map (fun c => ETree.ids c.1)).flatten
decreasing_by
  simp_wf
  have := List.sizeOf_lt_of_mem c.2
  omega

/-- Ids of a forest. -/
def forestIds (F : List ETree) : List Nat := (F.map ETree.ids).flatten

/-- Keys of the entity dictionary. -/
def SceneManager.keys (sm : SceneManager) : List Nat := sm.entities.map Prod.fst

/-- A tree is laid out in the store under a given parent reference: its root
id maps to an entity whose parent is the given reference and whose children
list is exactly the child roots, recursively. -/
inductive TreeIn : SceneManager → Option Nat → ETree → Prop where
  | node : ∀ (sm : SceneManager) (p : Option Nat) (i : Nat) (cs : List ETree)
      (e : Entity), sm.get_entity i = some e → e.parent = p →
      e.children = cs.map ETree.rootId →
      (∀ c ∈ cs, TreeIn sm (some i) c) →
      TreeIn sm p (ETree.node i cs)

/-- Occurrence of a tree as a subtree of another tree. -/
inductive SubtreeIn : ETree → ETree → Prop where
  | refl : ∀ t, SubtreeIn t t
  | step : ∀ (t : ETree) (i : Nat) (cs : List ETree) (c : ETree), c ∈ cs →
      SubtreeIn t c → SubtreeIn t (ETree.node i cs)

/-- Well-formedness of a store with respect to a forest: keys are the entity
ids and are distinct, the forest ids are distinct, the root list is the
forest roots, every tree is laid out in the store, children lists have no
duplicates, and every child id maps to an entity whose parent back-reference
points to the lister. -/
structure SceneWF (sm : SceneManager) (F : List ETree) : Prop where
  keyed : ∀ q ∈ sm.entities, q.2.id = q.1
  nodupKeys : sm.keys.Nodup
  nodupForest : (forestIds F).Nodup
  roots : sm.root_entities = F.map ETree.rootId
  trees : ∀ u ∈ F, TreeIn sm none u
  childNodup : ∀ (k : Nat) (e : Entity), sm.get_entity k = some e → e.children.Nodup
  childParent : ∀ (k : Nat) (e : Entity), sm.get_entity k = some e →
    ∀ d ∈ e.children, ∃ ed, sm.get_entity d = some ed ∧ ed.parent = some k

/-
Concrete scenes used by witnesses and counterexamples.
-/

/-- Bare active entity with a given id and position and no components. -/
def baseEntity (eid : Nat) (pos : Vec3) : Entity :=
  { id := eid, name := "entity", transform := { Transform.init with position := pos }
    parent := none, children := [], active := true
    rigidbody := none, collider := none }

/-- Unit box collider with the component defaults of ColliderComponent. -/
def unitBoxCollider : ColliderComponent :=
  { collider_type := ColliderType.box, size := ⟨1, 1, 1⟩, radius := 0.5
    height := 2, is_trigger := false }

/-- Sphere collider of a given radius. -/
def sphereCollider (r : ℝ) : ColliderComponent :=
  { collider_type := ColliderType.sphere, size := ⟨1, 1, 1⟩, radius := r
    height := 2, is_trigger := false }

/-- Unit-mass dynamic rigidbody with a given velocity, gravity off and no
drag. -/
def dynamicRb (v : Vec3) : RigidbodyComponent :=
  { mass := 1, use_gravity := false, is_kinematic := false, linear_drag := 0
    angular_drag := 0, velocity := v, angular_velocity := ⟨0, 0, 0⟩ }

/-- Kinematic rigidbody at rest. -/
def kinematicRb : RigidbodyComponent := { dynamicRb ⟨0, 0, 0⟩ with is_kinematic := true }

/-- Unit-mass rigidbody with gravity enabled, no drag, at rest. -/
def gravityRb : RigidbodyComponent := { dynamicRb ⟨0, 0, 0⟩ with use_gravity := true }

/-- Active entity with a unit sphere collider at the origin and no
rigidbody. -/
def sphereEntity1 : Entity :=
  { baseEntity 1 ⟨0, 0, 0⟩ with collider := some (sphereCollider 1) }

/-- Active entity with a rigidbody pulled by gravity. -/
def gravEntity : Entity :=
  { baseEntity 1 ⟨0, 0, 0⟩ with rigidbody := some gravityRb }

/-- Unit box at the origin without a rigidbody. -/
def boxAt0 : Entity :=
  { baseEntity 1 ⟨0, 0, 0⟩ with collider := some unitBoxCollider }

/-- Unit box at (0.5, 0, 0) without a rigidbody. -/
def boxAtHalf : Entity :=
  { baseEntity 2 ⟨0.5, 0, 0⟩ with collider := some unitBoxCollider }

/-- Unit sphere at (1.5, 0, 0) without a rigidbody. -/
def sphereAt15 : Entity :=
  { baseEntity 2 ⟨1.5, 0, 0⟩ with collider := some (sphereCollider 1) }

/-- Second unit sphere at the origin, coincident with sphereEntity1. -/
def sphereCoincident : Entity :=
  { baseEntity 3 ⟨0, 0, 0⟩ with collider := some (sphereCollider 1) }

/-- Degenerate sphere of radius 0 at the origin. -/
def zeroSphereAt0 : Entity :=
  { baseEntity 4 ⟨0, 0, 0⟩ with collider := some (sphereCollider 0) }

/-- Sphere of radius 0.5 at the origin, the ColliderComponent default. -/
def halfSphereAt0 : Entity :=
  { baseEntity 5 ⟨0, 0, 0⟩ with collider := some (sphereCollider 0.5) }

/-- Unit-mass body moving right at speed 2. -/
def headOnA : Entity :=
  { baseEntity 1 ⟨0, 0, 0⟩ with rigidbody := some (dynamicRb ⟨2, 0, 0⟩) }

/-- Unit-mass body moving left at speed 2. -/
def headOnB : Entity :=
  { baseEntity 2 ⟨0.5, 0, 0⟩ with rigidbody := some (dynamicRb ⟨-2, 0, 0⟩) }

/-- Contact between the two head-on bodies along the x axis. -/
def headOnContact : PhysicsEngine.CollisionInfo :=
  { entity_a := 1, entity_b := 2, point := ⟨0.25, 0, 0⟩, normal := ⟨1, 0, 0⟩
    penetration := 0.5 }

/-- Kinematic unit box at the origin. -/
def kinBoxA : Entity :=
  { baseEntity 1 ⟨0, 0, 0⟩ with
    rigidbody := some kinematicRb
    collider := some unitBoxCollider }

/-- Kinematic unit box at (0.5, 0, 0), overlapping kinBoxA. -/
def kinBoxB : Entity :=
  { baseEntity 2 ⟨0.5, 0, 0⟩ with
    rigidbody := some kinematicRb
    collider := some unitBoxCollider }


/-- Root entity of the witness chain scene, with child 2. -/
def sceneE1 : Entity := { baseEntity 1 ⟨0, 0, 0⟩ with children := [2] }

/-- Middle entity of the witness chain scene: child of 1, parent of 3. -/
def sceneE2 : Entity :=
  { baseEntity 2 ⟨0, 0, 0⟩ with parent := some 1, children := [3] }

/-- Leaf entity of the witness chain scene, child of 2. -/
def sceneE3 : Entity := { baseEntity 3 ⟨0, 0, 0⟩ with parent := some 2 }

/-- Witness scene: a three-entity chain 1 -> 2 -> 3 rooted at 1. -/
def chainScene : SceneManager :=
  { entities := [(1, sceneE1), (2, sceneE2), (3, sceneE3)]
    root_entities := [1], next_entity_id := 4 }

/-- Id tree of the leaf entity 3. -/
def chainTree3 : ETree := ETree.node 3 []

/-- Id tree rooted at entity 2, containing 3. -/
def chainTree2 : ETree := ETree.node 2 [chainTree3]

/-- Id tree of the whole chain, rooted at entity 1. -/
def chainTree1 : ETree := ETree.node 1 [chainTree2]

end

/-
Theorems.  Helper simp lemmas first, then one theorem per claim (with
witnesses and counterexamples as separate closed theorems).
-/

@[ext] theorem Vec3.ext_mk {a b : Vec3} (hx : a.x = b.x) (hy : a.y = b.y)
    (hz : a.z = b.z) : a = b := by
  cases a; cases b; simp_all

@[simp] theorem Vec3.add_def (a b : Vec3) :
    a + b = ⟨a.x + b.x, a.y + b.y, a.z + b.z⟩ := rfl

@[simp] theorem Vec3.sub_def (a b : Vec3) :
    a - b = ⟨a.x - b.x, a.y - b.y, a.z - b.z⟩ := rfl

@[simp] theorem Vec3.neg_def (a : Vec3) : -a = ⟨-a.x, -a.y, -a.z⟩ := rfl

@[simp] theorem Vec3.mul_def (a b : Vec3) :
    a * b = ⟨a.x * b.x, a.y * b.y, a.z * b.z⟩ := rfl

@[simp] theorem Vec3.smul_def (a : Vec3) (r : ℝ) :
    a * r = ⟨a.x * r, a.y * r, a.z * r⟩ := rfl

@[simp] theorem Vec3.div_def (a : Vec3) (r : ℝ) :
    a / r = ⟨a.x / r, a.y / r, a.z / r⟩ := rfl

@[simp] theorem Vec3.zero_def : (0 : Vec3) = ⟨0, 0, 0⟩ := rfl

@[simp] theorem Vec3.dot_def (a b : Vec3) :
    Vec3.dot a b = a.x * b.x + a.y * b.y + a.z * b.z := rfl

/-- C7: the scheduler consumes only whole fixed steps.  Advancing adds the
scaled wall delta to the accumulator; a consume attempt subtracts exactly one
fixed step and returns true exactly when the accumulator is at least the
fixed step, and otherwise returns false leaving the state unchanged; with
fixed step 0.02, a single advance of 0.05 from the initial state lets exactly
two steps be consumed and leaves 0.01 in the accumulator. -/
theorem timeManager_whole_steps :
    (∀ (tm : TimeManager) (wd : ℝ),
      (tm.update wd).fixed_accumulator = tm.fixed_accumulator + wd * tm.time_scale) ∧
    (∀ tm : TimeManager,
      ((tm.should_fixed_update.1 = true ↔ tm.fixed_accumulator ≥ tm.fixed_delta_time) ∧
       (tm.should_fixed_update.1 = true →
         tm.should_fixed_update.2 =
           { tm with fixed_accumulator := tm.fixed_accumulator - tm.fixed_delta_time }) ∧
       (tm.should_fixed_update.1 = false → tm.should_fixed_update.2 = tm))) ∧
    (((TimeManager.init.update 0.05).should_fixed_update.1 = true ∧
      ((TimeManager.init.update 0.05).should_fixed_update.2.should_fixed_update.1 = true ∧
       ((TimeManager.init.update 0.05).should_fixed_update.2.should_fixed_update.2.should_fixed_update.1
          = false ∧
        (TimeManager.init.update 0.05).should_fixed_update.2.should_fixed_update.2.should_fixed_update.2.fixed_accumulator
          = 0.01)))) := by
  refine ⟨fun tm wd => rfl, fun tm => ?_, ?_⟩
  · unfold TimeManager.should_fixed_update
    by_cases h : tm.fixed_accumulator ≥ tm.fixed_delta_time
    · simp [h]
    · simp [h]
  · constructor
    · simp [TimeManager.should_fixed_update, TimeManager.init, TimeManager.update]
      norm_num
    constructor
    · simp [TimeManager.should_fixed_update, TimeManager.init, TimeManager.update]
      norm_num
    constructor
    · simp [TimeManager.should_fixed_update, TimeManager.init, TimeManager.update]
      norm_num
    · simp [TimeManager.should_fixed_update, TimeManager.init, TimeManager.update]
      norm_num

/-- C1: the raycast of the source is an unimplemented TODO stub: even for a
scene containing an entity with a unit sphere collider straight ahead of the
ray well within max_distance, it reports no hit instead of the exact
ray-shape intersection. -/
theorem raycast_stub_no_hit :
    PhysicsEngine.raycast [sphereEntity1] ⟨-5, 0, 0⟩ ⟨1, 0, 0⟩ 1000 = none := rfl

/-- C5: one integration step acts on exactly the enumerated (active) entities
holding a non-kinematic rigidbody; on such an entity it adds gravity (when
enabled) to the velocity, applies the drag factors, and advances position and
rotation by the damped velocities, in that order; an inactive entity, an
entity without a rigidbody and a kinematic entity are returned untouched; a
linear drag of at least 1 over the step makes the damping factor
nonpositive, inverting the velocity sign. -/
theorem integration_step_characterization (es : List Entity) (dt : ℝ) (k : Nat)
    (e : Entity) (h : es.get? k = some e) :
    (e.active = false → (PhysicsEngine.integratePhase es dt).get? k = some e) ∧
    (e.rigidbody = none → (PhysicsEngine.integratePhase es dt).get? k = some e) ∧
    (∀ rb : RigidbodyComponent, e.rigidbody = some rb →
      (rb.is_kinematic = true → (PhysicsEngine.integratePhase es dt).get? k = some e) ∧
      (rb.is_kinematic = false → e.active = true →
        (PhysicsEngine.integratePhase es dt).get? k = some
          { e with
            rigidbody := some
              { rb with
                velocity :=
                  (rb.velocity + (if rb.use_gravity then PhysicsEngine.gravity else 0) * dt) *
                    ((1 : ℝ) - rb.linear_drag * dt)
                angular_velocity :=
                  rb.angular_velocity * ((1 : ℝ) - rb.angular_drag * dt) }
            transform :=
              { e.transform with
                position := e.transform.position +
                  ((rb.velocity + (if rb.use_gravity then PhysicsEngine.gravity else 0) * dt) *
                    ((1 : ℝ) - rb.linear_drag * dt)) * dt
                rotation := e.transform.rotation +
                  (rb.angular_velocity * ((1 : ℝ) - rb.angular_drag * dt)) * dt } }) ∧
      (0 < dt → 1 / dt ≤ rb.linear_drag → (1 : ℝ) - rb.linear_drag * dt ≤ 0)) := by
  have hmap : ∀ f : Entity → Entity, (es.map f).get? k = some (f e) := by
    intro f
    rw [List.get?_map, h]
    rfl
  refine ⟨?_, ?_, ?_⟩
  · intro ha
    have := hmap (fun e =>
      if e.active && e.rigidbody.isSome then PhysicsEngine.integrate e dt else e)
    rw [PhysicsEngine.integratePhase, this, ha]
    simp
  · intro hrb
    have := hmap (fun e =>
      if e.active && e.rigidbody.isSome then PhysicsEngine.integrate e dt else e)
    rw [PhysicsEngine.integratePhase, this]
    by_cases ha : e.active <;> simp [ha, hrb, PhysicsEngine.integrate]
  · intro rb hrb
    refine ⟨?_, ?_, ?_⟩
    · intro hk
      have := hmap (fun e =>
        if e.active && e.rigidbody.isSome then PhysicsEngine.integrate e dt else e)
      rw [PhysicsEngine.integratePhase, this]
      by_cases ha : e.active <;> simp [ha, hrb, PhysicsEngine.integrate, hk]
    · intro hk ha
      have := hmap (fun e =>
        if e.active && e.rigidbody.isSome then PhysicsEngine.integrate e dt else e)
      rw [PhysicsEngine.integratePhase, this]
      simp [ha, hrb, PhysicsEngine.integrate, hk]
    · intro hdt hld
      have h1 : (1 : ℝ) ≤ rb.linear_drag * dt := by
        have := (div_le_iff hdt).mp hld
        linarith
      linarith

/-- Witness for C5 at a concrete input: a single active entity with a
gravity-enabled, drag-free, unit-mass rigidbody at rest, integrated over a
step of one second, ends with velocity (0, -9.81, 0) and position
(0, -9.81, 0). -/
theorem integration_step_characterization_witness :
    (PhysicsEngine.integratePhase [gravEntity] 1).get? 0 = some
      { gravEntity with
        rigidbody := some { gravityRb with velocity := ⟨0, -9.81, 0⟩ }
        transform := { gravEntity.transform with position := ⟨0, -9.81, 0⟩ } } := by
  have h := (integration_step_characterization [gravEntity] 1 0 gravEntity rfl).2.2
    gravityRb rfl
  have h2 := h.2.1 rfl rfl
  rw [h2]
  simp only [gravEntity, gravityRb, dynamicRb, baseEntity, Transform.init,
    PhysicsEngine.gravity]
  norm_num

/-- C3 (amended): for a pair of box colliders a collision is reported exactly
when all three per-axis overlaps (halfA + halfB) minus the center distance
are strictly positive; the reported penetration is the minimum overlap, the
contact point the midpoint of the centers, and the contact normal the unit
vector along the minimum-overlap axis (tie-break priority x, then y, then z),
signed toward entity B (positive axis direction) when the center of A is less
than the center of B on that axis, else toward A. -/
theorem check_box_box_characterization (ea eb : Entity)
    (ca cb : ColliderComponent) (ha : ea.collider = some ca)
    (hb : eb.collider = some cb) (ox oy oz : ℝ)
    (hox : ox = ((ca.size * ea.transform.scale).x / 2 +
        (cb.size * eb.transform.scale).x / 2) -
      |ea.transform.position.x - eb.transform.position.x|)
    (hoy : oy = ((ca.size * ea.transform.scale).y / 2 +
        (cb.size * eb.transform.scale).y / 2) -
      |ea.transform.position.y - eb.transform.position.y|)
    (hoz : oz = ((ca.size * ea.transform.scale).z / 2 +
        (cb.size * eb.transform.scale).z / 2) -
      |ea.transform.position.z - eb.transform.position.z|) :
    ((PhysicsEngine.check_box_box ea eb).isSome ↔ 0 < ox ∧ 0 < oy ∧ 0 < oz) ∧
    (∀ r : PhysicsEngine.CollisionInfo, PhysicsEngine.check_box_box ea eb = some r →
      r.entity_a = ea.id ∧ r.entity_b = eb.id ∧
      r.penetration = min ox (min oy oz) ∧
      r.point = (ea.transform.position + eb.transform.position) / (2 : ℝ) ∧
      (ox ≤ oy → ox ≤ oz → r.normal =
        ⟨if ea.transform.position.x < eb.transform.position.x then 1 else -1, 0, 0⟩) ∧
      (oy < ox → oy ≤ oz → r.normal =
        ⟨0, if ea.transform.position.y < eb.transform.position.y then 1 else -1, 0⟩) ∧
      (oz < ox → oz < oy → r.normal =
        ⟨0, 0, if ea.transform.position.z < eb.transform.position.z then 1 else -1⟩)) := by
  have hdiv : ∀ v : Vec3, ∀ s : ℝ, (v / s).x = v.x / s ∧ (v / s).y = v.y / s ∧
      (v / s).z = v.z / s := by
    intro v s; exact ⟨rfl, rfl, rfl⟩
  rw [PhysicsEngine.check_box_box, ha, hb]
  simp only
  by_cases hc :
      ((ca.size * ea.transform.scale / (2 : ℝ)).x + (cb.size * eb.transform.scale / (2 : ℝ)).x) -
        |ea.transform.position.x - eb.transform.position.x| > 0 ∧
      ((ca.size * ea.transform.scale / (2 : ℝ)).y + (cb.size * eb.transform.scale / (2 : ℝ)).y) -
        |ea.transform.position.y - eb.transform.position.y| > 0 ∧
      ((ca.size * ea.transform.scale / (2 : ℝ)).z + (cb.size * eb.transform.scale / (2 : ℝ)).z) -
        |ea.transform.position.z - eb.transform.position.z| > 0
  · rw [if_pos hc]
    have hox2 : ox = ((ca.size * ea.transform.scale / (2 : ℝ)).x +
        (cb.size * eb.transform.scale / (2 : ℝ)).x) -
        |ea.transform.position.x - eb.transform.position.x| := by
      rw [hox]; rfl
    have hoy2 : oy = ((ca.size * ea.transform.scale / (2 : ℝ)).y +
        (cb.size * eb.transform.scale / (2 : ℝ)).y) -
        |ea.transform.position.y - eb.transform.position.y| := by
      rw [hoy]; rfl
    have hoz2 : oz = ((ca.size * ea.transform.scale / (2 : ℝ)).z +
        (cb.size * eb.transform.scale / (2 : ℝ)).z) -
        |ea.transform.position.z - eb.transform.position.z| := by
      rw [hoz]; rfl
    rw [← hox2, ← hoy2, ← hoz2] at hc ⊢
    constructor
    · simpa using hc
    · intro r hr
      have hrr := (Option.some.injEq _ _).mp hr
      subst hrr
      refine ⟨rfl, rfl, rfl, rfl, ?_, ?_, ?_⟩
      · intro h1 h2
        have hmin : min ox (min oy oz) = ox := min_eq_left (le_min h1 h2)
        dsimp only
        rw [if_pos hmin]
      · intro h1 h2
        have hyz : min oy oz = oy := min_eq_left h2
        have hmin : min ox (min oy oz) = oy := by
          rw [hyz]; exact min_eq_right h1.le
        have hne : ¬ (min ox (min oy oz) = ox) := by
          rw [hmin]; exact ne_of_lt h1
        dsimp only
        rw [if_neg hne, if_pos hmin]
      · intro h1 h2
        have hyz : min oy oz = oz := min_eq_right h2.le
        have hmin : min ox (min oy oz) = oz := by
          rw [hyz]; exact min_eq_right h1.le
        have hnex : ¬ (min ox (min oy oz) = ox) := by
          rw [hmin]; exact ne_of_lt h1
        have hney : ¬ (min ox (min oy oz) = oy) := by
          rw [hmin]; exact ne_of_lt h2
        dsimp only
        rw [if_neg hnex, if_neg hney]
  · rw [if_neg hc]
    have hox2 : ox = ((ca.size * ea.transform.scale / (2 : ℝ)).x +
        (cb.size * eb.transform.scale / (2 : ℝ)).x) -
        |ea.transform.position.x - eb.transform.position.x| := by
      rw [hox]; rfl
    have hoy2 : oy = ((ca.size * ea.transform.scale / (2 : ℝ)).y +
        (cb.size * eb.transform.scale / (2 : ℝ)).y) -
        |ea.transform.position.y - eb.transform.position.y| := by
      rw [hoy]; rfl
    have hoz2 : oz = ((ca.size * ea.transform.scale / (2 : ℝ)).z +
        (cb.size * eb.transform.scale / (2 : ℝ)).z) -
        |ea.transform.position.z - eb.transform.position.z| := by
      rw [hoz]; rfl
    rw [← hox2, ← hoy2, ← hoz2] at hc
    constructor
    · simpa using hc
    · intro r hr
      simp at hr

/-- C3 counterexample to the claimed sign convention: for unit boxes at
(0, 0, 0) and (0.5, 0, 0) the center of A is less than the center of B on the
minimum-overlap axis x, yet the detector reports the normal (1, 0, 0), which
points toward entity B, not the claimed direction toward entity A,
(-1, 0, 0). -/
theorem check_box_box_sign_counterexample :
    boxAt0.transform.position.x < boxAtHalf.transform.position.x ∧
    (PhysicsEngine.check_box_box boxAt0 boxAtHalf).map PhysicsEngine.CollisionInfo.normal
      = some ⟨1, 0, 0⟩ ∧
    (⟨1, 0, 0⟩ : Vec3) ≠ ⟨-1, 0, 0⟩ := by
  refine ⟨by norm_num [boxAt0, boxAtHalf, baseEntity, Transform.init], ?_, ?_⟩
  · simp only [PhysicsEngine.check_box_box, boxAt0, boxAtHalf, baseEntity,
      unitBoxCollider, Transform.init, Vec3.mul_def, Vec3.div_def]
    norm_num [abs_of_nonneg]
  · intro h
    have := congrArg Vec3.x h
    norm_num at this

/-- Witness for C3 at a concrete input: the same unit boxes at (0, 0, 0) and
(0.5, 0, 0) produce a collision with penetration 0.5 and the normal (1, 0, 0)
along the minimum-overlap axis x. -/
theorem check_box_box_characterization_witness :
    (PhysicsEngine.check_box_box boxAt0 boxAtHalf).map
        PhysicsEngine.CollisionInfo.penetration = some 0.5 ∧
    (PhysicsEngine.check_box_box boxAt0 boxAtHalf).map
        PhysicsEngine.CollisionInfo.normal = some ⟨1, 0, 0⟩ := by
  have h := check_box_box_characterization boxAt0 boxAtHalf unitBoxCollider
    unitBoxCollider rfl rfl 0.5 1 1
    (by norm_num [boxAt0, boxAtHalf, baseEntity, unitBoxCollider, Transform.init,
      Vec3.mul_def, abs_of_nonneg])
    (by norm_num [boxAt0, boxAtHalf, baseEntity, unitBoxCollider, Transform.init,
      Vec3.mul_def, abs_of_nonneg])
    (by norm_num [boxAt0, boxAtHalf, baseEntity, unitBoxCollider, Transform.init,
      Vec3.mul_def, abs_of_nonneg])
  obtain ⟨hs, hfields⟩ := h
  obtain ⟨r, hr⟩ := Option.isSome_iff_exists.mp (hs.mpr (by norm_num))
  obtain ⟨-, -, hpen, -, hnx, -, -⟩ := hfields r hr
  rw [hr]
  constructor
  · simp only [Option.map_some']
    rw [hpen]
    norm_num
  · simp only [Option.map_some']
    rw [hnx (by norm_num) (by norm_num)]
    norm_num [boxAt0, boxAtHalf, baseEntity, Transform.init]

/-- Helper: evaluation of a square root at a perfect square. -/
theorem sqrt_of_sq (a b : ℝ) (hb : 0 ≤ b) (h : a = b ^ 2) : Real.sqrt a = b := by
  rw [h, Real.sqrt_sq hb]

/-- C6: for a pair of sphere colliders a collision is reported exactly when
the distance between the centers is strictly less than the sum of the scaled
radii; the penetration is the radius sum minus the distance, the normal is
the center difference divided by the distance (or the fallback (0, 1, 0)
when the centers are coincident, so no division by zero occurs), and the
contact point is the center of A plus the normal scaled by the radius
of A. -/
theorem check_sphere_sphere_characterization (ea eb : Entity)
    (ca cb : ColliderComponent) (ha : ea.collider = some ca)
    (hb : eb.collider = some cb) (ra rb dist : ℝ)
    (hra : ra = ca.radius * Vec3.maxComp ea.transform.scale)
    (hrb : rb = cb.radius * Vec3.maxComp eb.transform.scale)
    (hd : dist = Vec3.norm (eb.transform.position - ea.transform.position)) :
    ((PhysicsEngine.check_sphere_sphere ea eb).isSome ↔ dist < ra + rb) ∧
    (∀ r : PhysicsEngine.CollisionInfo,
      PhysicsEngine.check_sphere_sphere ea eb = some r →
      r.entity_a = ea.id ∧ r.entity_b = eb.id ∧
      r.penetration = (ra + rb) - dist ∧
      (0 < dist → r.normal = (eb.transform.position - ea.transform.position) / dist) ∧
      (dist = 0 → r.normal = ⟨0, 1, 0⟩) ∧
      r.point = ea.transform.position + r.normal * ra) := by
  subst hra hrb hd
  rw [PhysicsEngine.check_sphere_sphere, ha, hb]
  simp only
  by_cases hc : Vec3.norm (eb.transform.position - ea.transform.position) <
      ca.radius * Vec3.maxComp ea.transform.scale +
      cb.radius * Vec3.maxComp eb.transform.scale
  · rw [if_pos hc]
    refine ⟨by simpa using hc, ?_⟩
    intro r hr
    have hrr := (Option.some.injEq _ _).mp hr
    subst hrr
    refine ⟨rfl, rfl, rfl, ?_, ?_, rfl⟩
    · intro hpos
      dsimp only
      rw [if_pos hpos]
    · intro hzero
      dsimp only
      rw [if_neg (by rw [hzero]; exact lt_irrefl 0)]
  · rw [if_neg hc]
    refine ⟨by simpa using hc, ?_⟩
    intro r hr
    simp at hr

/-- Witness for C6 at concrete inputs: unit spheres with centers 1.5 apart
produce penetration 0.5, and coincident unit spheres produce the fallback
normal (0, 1, 0) without any fault. -/
theorem check_sphere_sphere_characterization_witness :
    (PhysicsEngine.check_sphere_sphere sphereEntity1 sphereAt15).map
        PhysicsEngine.CollisionInfo.penetration = some 0.5 ∧
    (PhysicsEngine.check_sphere_sphere sphereEntity1 sphereCoincident).map
        PhysicsEngine.CollisionInfo.normal = some ⟨0, 1, 0⟩ := by
  constructor
  · have hd : (1.5 : ℝ) =
        Vec3.norm (sphereAt15.transform.position - sphereEntity1.transform.position) := by
      simp only [sphereAt15, sphereEntity1, baseEntity, Transform.init, Vec3.sub_def,
        Vec3.norm, Vec3.dot]
      symm
      exact sqrt_of_sq _ 1.5 (by norm_num) (by norm_num)
    have h := check_sphere_sphere_characterization sphereEntity1 sphereAt15
      (sphereCollider 1) (sphereCollider 1) rfl rfl 1 1 1.5
      (by norm_num [sphereEntity1, baseEntity, sphereCollider, Transform.init, Vec3.maxComp])
      (by norm_num [sphereAt15, baseEntity, sphereCollider, Transform.init, Vec3.maxComp])
      hd
    obtain ⟨hs, hfields⟩ := h
    obtain ⟨r, hr⟩ := Option.isSome_iff_exists.mp (hs.mpr (by norm_num))
    obtain ⟨-, -, hpen, -, -, -⟩ := hfields r hr
    rw [hr]
    simp only [Option.map_some']
    rw [hpen]
    norm_num
  · have hd : (0 : ℝ) =
        Vec3.norm (sphereCoincident.transform.position - sphereEntity1.transform.position) := by
      simp only [sphereCoincident, sphereEntity1, baseEntity, Transform.init, Vec3.sub_def,
        Vec3.norm, Vec3.dot]
      symm
      exact sqrt_of_sq _ 0 (by norm_num) (by norm_num)
    have h := check_sphere_sphere_characterization sphereEntity1 sphereCoincident
      (sphereCollider 1) (sphereCollider 1) rfl rfl 1 1 0
      (by norm_num [sphereEntity1, baseEntity, sphereCollider, Transform.init, Vec3.maxComp])
      (by norm_num [sphereCoincident, baseEntity, sphereCollider, Transform.init, Vec3.maxComp])
      hd
    obtain ⟨hs, hfields⟩ := h
    obtain ⟨r, hr⟩ := Option.isSome_iff_exists.mp (hs.mpr (by norm_num))
    obtain ⟨-, -, -, -, hnz, -⟩ := hfields r hr
    rw [hr]
    simp only [Option.map_some']
    rw [hnz rfl]

/-- C10 (amended): for a box/sphere pair in which the sphere center lies
inside the box half-extent range on every axis (so the clamped closest point
coincides with the sphere center and the separation distance is 0), and whose
scaled sphere radius is strictly positive, the detector reports a collision
with the fallback normal (0, 1, 0), penetration equal to the scaled sphere
radius, and contact point equal to the sphere center, with the zero distance
never reaching the division. -/
theorem check_box_sphere_center_inside (be se : Entity)
    (bc sc : ColliderComponent) (hb : be.collider = some bc)
    (hs : se.collider = some sc)
    (hr : 0 < sc.radius * Vec3.maxComp se.transform.scale)
    (hx : |se.transform.position.x - be.transform.position.x| ≤
      (bc.size * be.transform.scale).x / 2)
    (hy : |se.transform.position.y - be.transform.position.y| ≤
      (bc.size * be.transform.scale).y / 2)
    (hz : |se.transform.position.z - be.transform.position.z| ≤
      (bc.size * be.transform.scale).z / 2) :
    PhysicsEngine.check_box_sphere be se = some
      { entity_a := be.id, entity_b := se.id,
        point := se.transform.position, normal := ⟨0, 1, 0⟩,
        penetration := sc.radius * Vec3.maxComp se.transform.scale } := by
  rw [PhysicsEngine.check_box_sphere, hb, hs]
  simp only
  have hax := abs_le.mp hx
  have hay := abs_le.mp hy
  have haz := abs_le.mp hz
  have hclip :
      Vec3.clip (se.transform.position - be.transform.position)
        (-(bc.size * be.transform.scale / (2 : ℝ)))
        (bc.size * be.transform.scale / (2 : ℝ)) =
      se.transform.position - be.transform.position := by
    rw [Vec3.clip]
    have ex : (se.transform.position - be.transform.position).x =
        se.transform.position.x - be.transform.position.x := rfl
    have ey : (se.transform.position - be.transform.position).y =
        se.transform.position.y - be.transform.position.y := rfl
    have ez : (se.transform.position - be.transform.position).z =
        se.transform.position.z - be.transform.position.z := rfl
    have hhx : (bc.size * be.transform.scale / (2 : ℝ)).x =
        (bc.size * be.transform.scale).x / 2 := rfl
    have hhy : (bc.size * be.transform.scale / (2 : ℝ)).y =
        (bc.size * be.transform.scale).y / 2 := rfl
    have hhz : (bc.size * be.transform.scale / (2 : ℝ)).z =
        (bc.size * be.transform.scale).z / 2 := rfl
    have hnx : (-(bc.size * be.transform.scale / (2 : ℝ))).x =
        -((bc.size * be.transform.scale).x / 2) := rfl
    have hny : (-(bc.size * be.transform.scale / (2 : ℝ))).y =
        -((bc.size * be.transform.scale).y / 2) := rfl
    have hnz : (-(bc.size * be.transform.scale / (2 : ℝ))).z =
        -((bc.size * be.transform.scale).z / 2) := rfl
    rw [ex, ey, ez, hhx, hhy, hhz, hnx, hny, hnz]
    have mx : max (se.transform.position.x - be.transform.position.x)
        (-((bc.size * be.transform.scale).x / 2)) =
        se.transform.position.x - be.transform.position.x := max_eq_left hax.1
    have my : max (se.transform.position.y - be.transform.position.y)
        (-((bc.size * be.transform.scale).y / 2)) =
        se.transform.position.y - be.transform.position.y := max_eq_left hay.1
    have mz : max (se.transform.position.z - be.transform.position.z)
        (-((bc.size * be.transform.scale).z / 2)) =
        se.transform.position.z - be.transform.position.z := max_eq_left haz.1
    rw [mx, my, mz, min_eq_right hax.2, min_eq_right hay.2, min_eq_right haz.2]
    rfl
  rw [hclip]
  have hclosest : se.transform.position - be.transform.position + be.transform.position =
      se.transform.position := by
    apply Vec3.ext_mk <;> simp <;> ring
  rw [hclosest]
  have hdelta : se.transform.position - se.transform.position = (⟨0, 0, 0⟩ : Vec3) := by
    apply Vec3.ext_mk <;> simp
  rw [hdelta]
  have hnorm0 : Vec3.norm ⟨0, 0, 0⟩ = 0 := by
    rw [Vec3.norm]
    exact sqrt_of_sq _ 0 le_rfl (by rw [Vec3.dot]; norm_num)
  rw [hnorm0]
  rw [if_pos hr]
  rw [if_neg (lt_irrefl 0)]
  rw [sub_zero]

/-- C10 counterexample to the unqualified claim: a degenerate sphere collider
of radius 0 whose center lies at the center of a unit box (so inside the
half-extent range on every axis) produces no collision at all, because the
zero separation distance is not strictly below the zero scaled radius. -/
theorem check_box_sphere_zero_radius_counterexample :
    |zeroSphereAt0.transform.position.x - boxAt0.transform.position.x| ≤
      (unitBoxCollider.size * boxAt0.transform.scale).x / 2 ∧
    |zeroSphereAt0.transform.position.y - boxAt0.transform.position.y| ≤
      (unitBoxCollider.size * boxAt0.transform.scale).y / 2 ∧
    |zeroSphereAt0.transform.position.z - boxAt0.transform.position.z| ≤
      (unitBoxCollider.size * boxAt0.transform.scale).z / 2 ∧
    PhysicsEngine.check_box_sphere boxAt0 zeroSphereAt0 = none := by
  refine ⟨?_, ?_, ?_, ?_⟩
  · norm_num [zeroSphereAt0, boxAt0, baseEntity, unitBoxCollider, Transform.init,
      sphereCollider, Vec3.mul_def]
  · norm_num [zeroSphereAt0, boxAt0, baseEntity, unitBoxCollider, Transform.init,
      sphereCollider, Vec3.mul_def]
  · norm_num [zeroSphereAt0, boxAt0, baseEntity, unitBoxCollider, Transform.init,
      sphereCollider, Vec3.mul_def]
  · rw [PhysicsEngine.check_box_sphere]
    simp only [zeroSphereAt0, boxAt0, baseEntity, unitBoxCollider, sphereCollider,
      Transform.init, Vec3.mul_def, Vec3.div_def, Vec3.neg_def, Vec3.sub_def,
      Vec3.add_def, Vec3.clip, Vec3.norm, Vec3.dot, Vec3.maxComp]
    norm_num

/-- Witness for C10 at a concrete input: a sphere of the default radius 0.5
centered inside a unit box at the origin is reported with the fallback normal
(0, 1, 0), penetration 0.5 and contact point at the sphere center. -/
theorem check_box_sphere_center_inside_witness :
    PhysicsEngine.check_box_sphere boxAt0 halfSphereAt0 = some
      { entity_a := 1, entity_b := 5, point := ⟨0, 0, 0⟩, normal := ⟨0, 1, 0⟩,
        penetration := 0.5 } := by
  have h := check_box_sphere_center_inside boxAt0 halfSphereAt0 unitBoxCollider
    (sphereCollider 0.5) rfl rfl
    (by norm_num [halfSphereAt0, baseEntity, sphereCollider, Transform.init, Vec3.maxComp])
    (by norm_num [halfSphereAt0, boxAt0, baseEntity, unitBoxCollider, Transform.init,
      Vec3.mul_def])
    (by norm_num [halfSphereAt0, boxAt0, baseEntity, unitBoxCollider, Transform.init,
      Vec3.mul_def])
    (by norm_num [halfSphereAt0, boxAt0, baseEntity, unitBoxCollider, Transform.init,
      Vec3.mul_def])
  rw [h]
  norm_num [halfSphereAt0, boxAt0, baseEntity, sphereCollider, Transform.init,
    Vec3.maxComp]

/-- Helper: an entity found by id carries that id. -/
theorem findEntity_id {es : List Entity} {j : Nat} {e : Entity}
    (h : PhysicsEngine.findEntity es j = some e) : e.id = j := by
  have := List.find?_some h
  simpa using this

/-- Helper: looking an id up after an id-preserving in-place update finds the
updated version of the previously found entity. -/
theorem findEntity_updateEntity (es : List Entity) (k j : Nat) (f : Entity → Entity)
    (hid : ∀ e : Entity, (f e).id = e.id) :
    PhysicsEngine.findEntity (PhysicsEngine.updateEntity es k f) j =
      (PhysicsEngine.findEntity es j).map (fun e => if e.id = k then f e else e) := by
  unfold PhysicsEngine.findEntity PhysicsEngine.updateEntity
  rw [List.find?_map]
  have hp : ((fun e : Entity => e.id == j) ∘ (fun e => if e.id = k then f e else e)) =
      (fun e : Entity => e.id == j) := by
    funext e
    by_cases h : e.id = k <;> simp [h, hid]
  rw [hp]

/-- C4: for a resolved contact between two non-kinematic bodies whose
relative velocity along the contact normal is non-positive, the applied
impulse scalar is -(1 + 0.5) times the velocity along the normal divided by
the sum of the inverse masses; the impulse vector divided by the own mass is
subtracted from the velocity of A and added to the velocity of B. -/
theorem resolve_collision_impulse (es : List Entity)
    (c : PhysicsEngine.CollisionInfo) (ea eb : Entity)
    (ra rb : RigidbodyComponent)
    (hfa : PhysicsEngine.findEntity es c.entity_a = some ea)
    (hfb : PhysicsEngine.findEntity es c.entity_b = some eb)
    (hra : ea.rigidbody = some ra) (hrb : eb.rigidbody = some rb)
    (hka : ra.is_kinematic = false) (hkb : rb.is_kinematic = false)
    (hab : c.entity_a ≠ c.entity_b)
    (hvan : Vec3.dot (rb.velocity - ra.velocity) c.normal ≤ 0) (j : ℝ)
    (hj : j = (-(1 + 0.5) * Vec3.dot (rb.velocity - ra.velocity) c.normal) /
      (1 / ra.mass + 1 / rb.mass)) :
    ((PhysicsEngine.findEntity (PhysicsEngine.resolve_collision es c)
        c.entity_a).bind Entity.rigidbody).map RigidbodyComponent.velocity =
      some (ra.velocity - (c.normal * j) / ra.mass) ∧
    ((PhysicsEngine.findEntity (PhysicsEngine.resolve_collision es c)
        c.entity_b).bind Entity.rigidbody).map RigidbodyComponent.velocity =
      some (rb.velocity + (c.normal * j) / rb.mass) := by
  subst hj
  have hida : ea.id = c.entity_a := findEntity_id hfa
  have hidb : eb.id = c.entity_b := findEntity_id hfb
  have hvan2 : ¬ (Vec3.dot (rb.velocity - ra.velocity) c.normal > 0) := not_lt.mpr hvan
  constructor
  · simp only [PhysicsEngine.resolve_collision, hfa, hfb, hra, hrb, hka, hkb,
      Bool.false_and, Bool.and_false, Bool.false_eq_true, if_false, hvan2]
    rw [findEntity_updateEntity]
    swap
    · intro e
      rcases e with ⟨i, n, t, pr, ch, act, rbo, co⟩
      rcases rbo with _ | rb2 <;> rfl
    rw [findEntity_updateEntity]
    swap
    · intro e
      rcases e with ⟨i, n, t, pr, ch, act, rbo, co⟩
      rcases rbo with _ | rb2 <;> rfl
    rw [findEntity_updateEntity]
    swap
    · intro e
      rfl
    rw [findEntity_updateEntity]
    swap
    · intro e
      rfl
    rw [hfa]
    simp only [Option.map_some', hida, hab, hra, hidb, if_true, if_false,
      Option.some_bind]
  · simp only [PhysicsEngine.resolve_collision, hfa, hfb, hra, hrb, hka, hkb,
      Bool.false_and, Bool.and_false, Bool.false_eq_true, if_false, hvan2]
    rw [findEntity_updateEntity]
    swap
    · intro e
      rcases e with ⟨i, n, t, pr, ch, act, rbo, co⟩
      rcases rbo with _ | rb2 <;> rfl
    rw [findEntity_updateEntity]
    swap
    · intro e
      rcases e with ⟨i, n, t, pr, ch, act, rbo, co⟩
      rcases rbo with _ | rb2 <;> rfl
    rw [findEntity_updateEntity]
    swap
    · intro e
      rfl
    rw [findEntity_updateEntity]
    swap
    · intro e
      rfl
    rw [hfb]
    have hba : ¬ (c.entity_b = c.entity_a) := fun h => hab h.symm
    simp only [Option.map_some', hida, hba, hab, hrb, hidb, if_true, if_false,
      Option.some_bind]

/-- Witness for C4 at the concrete head-on input: two unit-mass bodies with
velocities (2, 0, 0) and (-2, 0, 0) and contact normal (1, 0, 0) get impulse
scalar 3, leaving velocities (-1, 0, 0) and (1, 0, 0), which are
separating. -/
theorem resolve_collision_impulse_witness :
    ((PhysicsEngine.findEntity
        (PhysicsEngine.resolve_collision [headOnA, headOnB] headOnContact)
        1).bind Entity.rigidbody).map RigidbodyComponent.velocity =
      some ⟨-1, 0, 0⟩ ∧
    ((PhysicsEngine.findEntity
        (PhysicsEngine.resolve_collision [headOnA, headOnB] headOnContact)
        2).bind Entity.rigidbody).map RigidbodyComponent.velocity =
      some ⟨1, 0, 0⟩ ∧
    (-(1 + 0.5) * Vec3.dot ((dynamicRb ⟨-2, 0, 0⟩).velocity -
        (dynamicRb ⟨2, 0, 0⟩).velocity) headOnContact.normal) /
      (1 / (dynamicRb ⟨2, 0, 0⟩).mass + 1 / (dynamicRb ⟨-2, 0, 0⟩).mass) = 3 ∧
    Vec3.dot ((⟨1, 0, 0⟩ : Vec3) - ⟨-1, 0, 0⟩) headOnContact.normal > 0 := by
  have h := resolve_collision_impulse [headOnA, headOnB] headOnContact
    headOnA headOnB (dynamicRb ⟨2, 0, 0⟩) (dynamicRb ⟨-2, 0, 0⟩)
    rfl rfl rfl rfl rfl rfl (by norm_num [headOnContact])
    (by norm_num [dynamicRb, headOnContact, Vec3.dot, Vec3.sub_def]) 3
    (by norm_num [dynamicRb, headOnContact, Vec3.dot, Vec3.sub_def])
  refine ⟨?_, ?_, ?_, ?_⟩
  · have h1 := h.1
    rw [show headOnContact.entity_a = 1 from rfl] at h1
    rw [h1]
    norm_num [dynamicRb, headOnContact, Vec3.smul_def, Vec3.div_def, Vec3.sub_def]
  · have h2 := h.2
    rw [show headOnContact.entity_b = 2 from rfl] at h2
    rw [h2]
    norm_num [dynamicRb, headOnContact, Vec3.smul_def, Vec3.div_def, Vec3.add_def]
  · norm_num [dynamicRb, headOnContact, Vec3.dot, Vec3.sub_def]
  · norm_num [headOnContact, Vec3.dot, Vec3.sub_def]

/-- Helper: membership in the detector output is exactly the existence of an
index pair i < j whose entities both carry colliders and whose shape check
reports the collision. -/
theorem mem_detect_collisions (l : List Entity) (c : PhysicsEngine.CollisionInfo) :
    c ∈ PhysicsEngine.detect_collisions l ↔
      ∃ (i j : Nat) (ea eb : Entity), i < j ∧ l.get? i = some ea ∧
        l.get? j = some eb ∧ ea.collider.isSome = true ∧
        eb.collider.isSome = true ∧
        PhysicsEngine.check_collision ea eb = some c := by
  induction l with
  | nil =>
    simp [PhysicsEngine.detect_collisions]
  | cons a rest ih =>
    simp only [PhysicsEngine.detect_collisions, List.mem_append]
    constructor
    · rintro (hmem | hmem)
      · rw [List.mem_filterMap] at hmem
        obtain ⟨b, hb, hfb⟩ := hmem
        by_cases hcond : a.collider.isSome && b.collider.isSome
        · rw [if_pos hcond] at hfb
          simp only [Bool.and_eq_true] at hcond
          obtain ⟨m, hm⟩ := List.mem_iff_get?.mp hb
          exact ⟨0, m + 1, a, b, Nat.succ_pos m, rfl, hm, hcond.1, hcond.2, hfb⟩
        · rw [if_neg hcond] at hfb
          exact absurd hfb (by simp)
      · obtain ⟨i, j, ea, eb, hij, hgi, hgj, hca, hcb, hchk⟩ := ih.mp hmem
        exact ⟨i + 1, j + 1, ea, eb, Nat.succ_lt_succ hij, hgi, hgj, hca, hcb, hchk⟩
    · rintro ⟨i, j, ea, eb, hij, hgi, hgj, hca, hcb, hchk⟩
      cases i with
      | zero =>
        left
        rw [List.mem_filterMap]
        cases j with
        | zero => exact absurd hij (lt_irrefl 0)
        | succ m =>
          have hea : a = ea := by simpa using hgi
          refine ⟨eb, List.get?_mem hgj, ?_⟩
          rw [if_pos]
          · rw [hea]
            exact hchk
          · rw [hea, hca, hcb]
            rfl
      | succ k =>
        right
        apply ih.mpr
        cases j with
        | zero => exact absurd hij (by omega)
        | succ m =>
          exact ⟨k, m, ea, eb, Nat.lt_of_succ_lt_succ hij, hgi, hgj, hca, hcb, hchk⟩

/-- C2 (amended): the pair list produced by a physics update contains a
collision exactly when some index pair i < j of the candidate list (the
enumerated entities that carry a rigidbody, after integration) has colliders
on both sides and an overlapping shape check; so a pair is skipped exactly
when one member lacks a collider, entities without a rigidbody are never
candidates, and resolving a collision where either side lacks a rigidbody is
a silent no-op on the store. -/
theorem update_candidates_and_static_noop (es : List Entity) (dt : ℝ)
    (c : PhysicsEngine.CollisionInfo) :
    (c ∈ (PhysicsEngine.update es dt).2 ↔
      ∃ (i j : Nat) (ea eb : Entity), i < j ∧
        ((PhysicsEngine.get_all_entities (PhysicsEngine.integratePhase es dt)).filter
          (fun e => e.rigidbody.isSome)).get? i = some ea ∧
        ((PhysicsEngine.get_all_entities (PhysicsEngine.integratePhase es dt)).filter
          (fun e => e.rigidbody.isSome)).get? j = some eb ∧
        ea.collider.isSome = true ∧ eb.collider.isSome = true ∧
        PhysicsEngine.check_collision ea eb = some c) ∧
    (∀ (es2 : List Entity) (c2 : PhysicsEngine.CollisionInfo),
      ((PhysicsEngine.findEntity es2 c2.entity_a).bind Entity.rigidbody = none ∨
       (PhysicsEngine.findEntity es2 c2.entity_b).bind Entity.rigidbody = none) →
      PhysicsEngine.resolve_collision es2 c2 = es2) := by
  constructor
  · have hu : (PhysicsEngine.update es dt).2 =
        PhysicsEngine.detect_collisions ((PhysicsEngine.get_all_entities
          (PhysicsEngine.integratePhase es dt)).filter (fun e => e.rigidbody.isSome)) := rfl
    rw [hu, mem_detect_collisions]
  · intro es2 c2 hnone
    rcases hfa : PhysicsEngine.findEntity es2 c2.entity_a with _ | ea
    · simp only [PhysicsEngine.resolve_collision, hfa]
    · rcases hfb : PhysicsEngine.findEntity es2 c2.entity_b with _ | eb
      · simp only [PhysicsEngine.resolve_collision, hfa, hfb]
      · rw [hfa, hfb] at hnone
        simp only [Option.some_bind] at hnone
        rcases hnone with h | h
        · simp only [PhysicsEngine.resolve_collision, hfa, hfb, h]
        · rcases hra : ea.rigidbody with _ | ra
          · simp only [PhysicsEngine.resolve_collision, hfa, hfb, hra]
          · simp only [PhysicsEngine.resolve_collision, hfa, hfb, hra, h]

/-- C2 counterexample to the unamended claim: two overlapping active unit
boxes that carry colliders but no rigidbody produce no CollisionInfo at all
during an update, because the candidate set of the source is the entities
carrying a rigidbody, not the entities carrying a collider. -/
theorem update_candidates_counterexample :
    boxAt0.active = true ∧ boxAtHalf.active = true ∧
    boxAt0.collider.isSome = true ∧ boxAtHalf.collider.isSome = true ∧
    (PhysicsEngine.check_collision boxAt0 boxAtHalf).isSome = true ∧
    (PhysicsEngine.update [boxAt0, boxAtHalf] 0.02).2 = [] := by
  refine ⟨rfl, rfl, rfl, rfl, ?_, rfl⟩
  simp only [PhysicsEngine.check_collision, PhysicsEngine.check_box_box, boxAt0,
    boxAtHalf, baseEntity, unitBoxCollider, Transform.init, Vec3.mul_def, Vec3.div_def]
  norm_num [abs_of_nonneg]

/-- Witness for C2 at concrete inputs: two overlapping kinematic boxes that
carry rigidbodies produce their box/box CollisionInfo in the update pair
list, and resolving a contact whose sides carry no rigidbody leaves the
store unchanged. -/
theorem update_candidates_and_static_noop_witness :
    (⟨1, 2, ⟨0.25, 0, 0⟩, ⟨1, 0, 0⟩, 0.5⟩ : PhysicsEngine.CollisionInfo) ∈
      (PhysicsEngine.update [kinBoxA, kinBoxB] 0.02).2 ∧
    PhysicsEngine.resolve_collision [boxAt0, boxAtHalf]
      ⟨1, 2, ⟨0.25, 0, 0⟩, ⟨1, 0, 0⟩, 0.5⟩ = [boxAt0, boxAtHalf] := by
  constructor
  · apply (update_candidates_and_static_noop [kinBoxA, kinBoxB] 0.02 _).1.mpr
    refine ⟨0, 1, kinBoxA, kinBoxB, Nat.zero_lt_one, rfl, rfl, rfl, rfl, ?_⟩
    simp only [PhysicsEngine.check_collision, PhysicsEngine.check_box_box, kinBoxA,
      kinBoxB, baseEntity, unitBoxCollider, kinematicRb, dynamicRb, Transform.init,
      Vec3.mul_def, Vec3.div_def]
    norm_num [abs_of_nonneg]
  · exact (update_candidates_and_static_noop [] 0
      ⟨1, 2, ⟨0.25, 0, 0⟩, ⟨1, 0, 0⟩, 0.5⟩).2 [boxAt0, boxAtHalf] _ (Or.inl rfl)


/-- Helper: an id-preserving in-place update keeps the id enumeration of the
store. -/
theorem updateEntity_map_id (s : List Entity) (k0 : Nat) (f : Entity → Entity)
    (hid : ∀ x : Entity, (f x).id = x.id) :
    (PhysicsEngine.updateEntity s k0 f).map Entity.id = s.map Entity.id := by
  unfold PhysicsEngine.updateEntity
  rw [List.map_map]
  have hfun : (Entity.id ∘ fun x => if x.id = k0 then f x else x) = Entity.id := by
    funext x
    by_cases h : x.id = k0 <;> simp [h, hid]
  rw [hfun]

/-- Helper: an in-place update aimed at a different id leaves an entity
unchanged at its position. -/
theorem updateEntity_get?_ne (s : List Entity) (k : Nat) (e : Entity) (k0 : Nat)
    (f : Entity → Entity) (hk : s.get? k = some e) (hne : e.id ≠ k0) :
    (PhysicsEngine.updateEntity s k0 f).get? k = some e := by
  unfold PhysicsEngine.updateEntity
  rw [List.get?_map, hk]
  simp [hne]

/-- Helper: in a store with distinct ids, looking up the id of the entity at
position k finds exactly that entity. -/
theorem findEntity_get_nodup (s : List Entity) (hnd : (s.map Entity.id).Nodup)
    (k : Nat) (e : Entity) (hk : s.get? k = some e) :
    PhysicsEngine.findEntity s e.id = some e := by
  induction s generalizing k with
  | nil => simp at hk
  | cons x t ih =>
    cases k with
    | zero =>
      have hx : x = e := by simpa using hk
      subst hx
      unfold PhysicsEngine.findEntity
      exact List.find?_cons_of_pos _ (by simp)
    | succ m =>
      have ht : t.get? m = some e := hk
      have hmem : e.id ∈ t.map Entity.id :=
        List.mem_map_of_mem Entity.id (List.get?_mem ht)
      have hxne : x.id ≠ e.id := by
        intro hcontra
        rw [List.map_cons, List.nodup_cons] at hnd
        exact hnd.1 (hcontra ▸ hmem)
      have hrec := ih (by rw [List.map_cons, List.nodup_cons] at hnd; exact hnd.2) m ht
      unfold PhysicsEngine.findEntity at hrec ⊢
      rw [List.find?_cons_of_neg _ (by simp [hxne])]
      exact hrec

/-- Helper: resolving any contact leaves every kinematic entity of a
distinct-id store untouched, and never changes the id enumeration. -/
theorem resolve_collision_kinematic_preserved (s : List Entity)
    (c : PhysicsEngine.CollisionInfo) (k : Nat) (e : Entity)
    (rbk : RigidbodyComponent) (hk : s.get? k = some e)
    (hrb : e.rigidbody = some rbk) (hkin : rbk.is_kinematic = true)
    (hnd : (s.map Entity.id).Nodup) :
    (PhysicsEngine.resolve_collision s c).get? k = some e ∧
    (PhysicsEngine.resolve_collision s c).map Entity.id = s.map Entity.id := by
  rcases hfa : PhysicsEngine.findEntity s c.entity_a with _ | ea
  · simp only [PhysicsEngine.resolve_collision, hfa]
    exact ⟨hk, trivial⟩
  rcases hfb : PhysicsEngine.findEntity s c.entity_b with _ | eb
  · simp only [PhysicsEngine.resolve_collision, hfa, hfb]
    exact ⟨hk, trivial⟩
  rcases hrea : ea.rigidbody with _ | ra
  · simp only [PhysicsEngine.resolve_collision, hfa, hfb, hrea]
    exact ⟨hk, trivial⟩
  rcases hreb : eb.rigidbody with _ | rb2
  · simp only [PhysicsEngine.resolve_collision, hfa, hfb, hrea, hreb]
    exact ⟨hk, trivial⟩
  have hfe : PhysicsEngine.findEntity s e.id = some e := findEntity_get_nodup s hnd k e hk
  have hae_kin : c.entity_a = e.id → ra.is_kinematic = true := by
    intro h
    rw [h] at hfa
    have hee : e = ea := by
      have := hfe.symm.trans hfa
      exact Option.some.inj this
    rw [← hee, hrb] at hrea
    rw [← Option.some.inj hrea]
    exact hkin
  have hbe_kin : c.entity_b = e.id → rb2.is_kinematic = true := by
    intro h
    rw [h] at hfb
    have hee : e = eb := by
      have := hfe.symm.trans hfb
      exact Option.some.inj this
    rw [← hee, hrb] at hreb
    rw [← Option.some.inj hreb]
    exact hkin
  have hane : ra.is_kinematic = false → e.id ≠ c.entity_a := by
    intro hf h
    have h2 := hae_kin h.symm
    rw [h2] at hf
    exact Bool.noConfusion hf
  have hbne : rb2.is_kinematic = false → e.id ≠ c.entity_b := by
    intro hf h
    have h2 := hbe_kin h.symm
    rw [h2] at hf
    exact Bool.noConfusion hf
  by_cases hk2 : (ra.is_kinematic && rb2.is_kinematic) = true
  · simp only [PhysicsEngine.resolve_collision, hfa, hfb, hrea, hreb, hk2, if_true]
    exact ⟨hk, trivial⟩
  · have qstep : ∀ (s' : List Entity) (cond : Bool) (k0 : Nat) (f : Entity → Entity),
        (∀ x : Entity, (f x).id = x.id) → (cond = false → e.id ≠ k0) →
        (s'.get? k = some e ∧ s'.map Entity.id = s.map Entity.id) →
        ((if cond then s' else PhysicsEngine.updateEntity s' k0 f).get? k = some e ∧
         (if cond then s' else PhysicsEngine.updateEntity s' k0 f).map Entity.id =
           s.map Entity.id) := by
      intro s' cond k0 f hid hne hQ
      cases cond
      · simp only [Bool.false_eq_true, if_false]
        exact ⟨updateEntity_get?_ne s' k e k0 f hQ.1 (hne rfl),
          (updateEntity_map_id s' k0 f hid).trans hQ.2⟩
      · simp only [if_true]
        exact hQ
    simp only [PhysicsEngine.resolve_collision, hfa, hfb, hrea, hreb]
    rw [if_neg hk2]
    by_cases hv : Vec3.dot (rb2.velocity - ra.velocity) c.normal > 0
    · rw [if_pos hv]
      exact qstep _ _ _ _ (fun x => rfl) (fun hf => (hbne hf))
        (qstep _ _ _ _ (fun x => rfl) (fun hf => (hane hf)) ⟨hk, rfl⟩)
    · rw [if_neg hv]
      exact qstep _ _ _ _
        (by
          intro x
          rcases x with ⟨i, n, t, pr, ch, act, rbo, co⟩
          rcases rbo with _ | q <;> rfl)
        (fun hf => (hbne hf))
        (qstep _ _ _ _
          (by
            intro x
            rcases x with ⟨i, n, t, pr, ch, act, rbo, co⟩
            rcases rbo with _ | q <;> rfl)
          (fun hf => (hane hf))
          (qstep _ _ _ _ (fun x => rfl) (fun hf => (hbne hf))
            (qstep _ _ _ _ (fun x => rfl) (fun hf => (hane hf)) ⟨hk, rfl⟩)))

/-- C8: a whole physics step never touches an entity whose rigidbody is
kinematic: it is not integrated, receives no positional correction and no
impulse, so its full record (transform and velocity included) is unchanged;
in particular a contact whose two sides are both kinematic changes neither
entity. -/
theorem physics_step_kinematic_untouched (es : List Entity) (dt : ℝ) (k : Nat)
    (e : Entity) (rbk : RigidbodyComponent) (hk : es.get? k = some e)
    (hrb : e.rigidbody = some rbk) (hkin : rbk.is_kinematic = true)
    (hnd : (es.map Entity.id).Nodup) :
    (PhysicsEngine.update es dt).1.get? k = some e := by
  have hint : PhysicsEngine.integrate e dt = e := by
    simp only [PhysicsEngine.integrate, hrb, hkin, if_true]
  have hmap : (PhysicsEngine.integratePhase es dt).get? k = some e := by
    rw [PhysicsEngine.integratePhase, List.get?_map, hk]
    simp only [Option.map_some']
    by_cases hcond : e.active && e.rigidbody.isSome
    · rw [if_pos hcond, hint]
    · rw [if_neg hcond]
  have hintid : ∀ x : Entity, (PhysicsEngine.integrate x dt).id = x.id := by
    intro x
    rcases x with ⟨i, n, t, pr, ch, act, rbo, co⟩
    rcases rbo with _ | q
    · rfl
    · simp only [PhysicsEngine.integrate]
      split <;> rfl
  have hmapid : (PhysicsEngine.integratePhase es dt).map Entity.id = es.map Entity.id := by
    rw [PhysicsEngine.integratePhase, List.map_map]
    have hfun : (Entity.id ∘ fun x =>
        if x.active && x.rigidbody.isSome then PhysicsEngine.integrate x dt else x) =
        Entity.id := by
      funext x
      dsimp only [Function.comp]
      by_cases h : (x.active && x.rigidbody.isSome) = true
      · rw [if_pos h, hintid]
      · rw [if_neg h]
    rw [hfun]
  have hfold : ∀ (ps : List PhysicsEngine.CollisionInfo) (s : List Entity),
      s.get? k = some e → s.map Entity.id = es.map Entity.id →
      (ps.foldl PhysicsEngine.resolve_collision s).get? k = some e := by
    intro ps
    induction ps with
    | nil =>
      intro s h1 h2
      exact h1
    | cons c rest ih =>
      intro s h1 h2
      have hndS : (s.map Entity.id).Nodup := by
        rw [h2]
        exact hnd
      have hres := resolve_collision_kinematic_preserved s c k e rbk h1 hrb hkin hndS
      exact ih _ hres.1 (hres.2.trans h2)
  have hu : (PhysicsEngine.update es dt).1 =
      (PhysicsEngine.detect_collisions
        ((PhysicsEngine.get_all_entities (PhysicsEngine.integratePhase es dt)).filter
          (fun e2 => e2.rigidbody.isSome))).foldl PhysicsEngine.resolve_collision
        (PhysicsEngine.integratePhase es dt) := rfl
  rw [hu]
  exact hfold _ _ hmap hmapid

/-- Witness for C8 at a concrete input: two overlapping kinematic boxes go
through a full update (their contact is detected) and both records are
returned exactly unchanged. -/
theorem physics_step_kinematic_untouched_witness :
    (PhysicsEngine.update [kinBoxA, kinBoxB] 0.02).1.get? 0 = some kinBoxA ∧
    (PhysicsEngine.update [kinBoxA, kinBoxB] 0.02).1.get? 1 = some kinBoxB := by
  constructor
  · exact physics_step_kinematic_untouched [kinBoxA, kinBoxB] 0.02 0 kinBoxA
      kinematicRb rfl rfl rfl (by simp [kinBoxA, kinBoxB, baseEntity])
  · exact physics_step_kinematic_untouched [kinBoxA, kinBoxB] 0.02 1 kinBoxB
      kinematicRb rfl rfl rfl (by simp [kinBoxA, kinBoxB, baseEntity])


/-- Helper: unfolding equation for the id list of a tree node. -/
theorem ETree.ids_node (i : Nat) (cs : List ETree) :
    ETree.ids (ETree.node i cs) = i :: (cs.map ETree.ids).flatten := by
  unfold ETree.ids
  congr 1
  congr 1
  exact List.attach_map_coe cs ETree.ids

/-- Helper: the root id of a tree is in its id list. -/
theorem ETree.rootId_mem_ids (t : ETree) : t.rootId ∈ t.ids := by
  cases t with
  | node i cs => rw [ETree.ids_node, ETree.rootId]; exact List.mem_cons_self i _

/-- Helper: an id list is never empty. -/
theorem ETree.ids_ne_nil (t : ETree) : t.ids ≠ [] := by
  cases t with
  | node i cs => rw [ETree.ids_node]; exact List.cons_ne_nil i _

/-- Helper: a child tree id list is a sublist of the parent node id list. -/
theorem ids_sublist_of_mem_children {c : ETree} {cs : List ETree} (h : c ∈ cs)
    (i : Nat) : c.ids.Sublist (ETree.node i cs).ids := by
  rw [ETree.ids_node]
  exact (List.sublist_flatten_of_mem (List.mem_map_of_mem ETree.ids h)).cons i

/-- Helper: id lists of subtrees are sublists. -/
theorem subtree_ids_sublist {t u : ETree} (h : SubtreeIn t u) :
    t.ids.Sublist u.ids := by
  induction h with
  | refl => exact List.Sublist.refl _
  | step i cs c hc hsub ih => exact ih.trans (ids_sublist_of_mem_children hc i)

/-- Helper: a child id list is strictly shorter than the parent node id list. -/
theorem child_ids_length_lt {c : ETree} {cs : List ETree} (h : c ∈ cs) (i : Nat) :
    c.ids.length < (ETree.node i cs).ids.length := by
  have hs : c.ids.Sublist (cs.map ETree.ids).flatten :=
    List.sublist_flatten_of_mem (List.mem_map_of_mem ETree.ids h)
  have := hs.length_le
  rw [ETree.ids_node]
  simpa using Nat.lt_succ_of_le this

/-- Helper: lookup returns none exactly when the id is not a key. -/
theorem get_entity_eq_none_iff (sm : SceneManager) (j : Nat) :
    sm.get_entity j = none ↔ j ∉ sm.keys := by
  unfold SceneManager.get_entity SceneManager.keys
  rw [Option.map_eq_none', List.find?_eq_none]
  constructor
  · intro h hmem
    obtain ⟨q, hq, hfst⟩ := List.mem_map.mp hmem
    exact h q hq (by simp [hfst])
  · intro h q hq hbeq
    exact h (List.mem_map.mpr ⟨q, hq, by simpa using hbeq⟩)

/-- Helper: a successful lookup means the id is a key. -/
theorem get_entity_mem_keys {sm : SceneManager} {j : Nat} {e : Entity}
    (h : sm.get_entity j = some e) : j ∈ sm.keys := by
  by_contra hmem
  rw [← get_entity_eq_none_iff] at hmem
  rw [h] at hmem
  exact Option.noConfusion hmem

/-- Helper: with nodup keys, membership in the store determines lookup. -/
theorem get_entity_of_mem {sm : SceneManager} (hnd : sm.keys.Nodup)
    {q : Nat × Entity} (hq : q ∈ sm.entities) : sm.get_entity q.1 = some q.2 := by
  obtain ⟨entities, roots, nid⟩ := sm
  unfold SceneManager.get_entity
  unfold SceneManager.keys at hnd
  dsimp only at hq hnd ⊢
  induction entities with
  | nil => simp at hq
  | cons x t ih =>
    rcases List.mem_cons.mp hq with hx | ht
    · subst hx
      rw [List.find?_cons_of_pos _ (by simp)]
      rfl
    · have hxne : x.1 ≠ q.1 := by
        intro hcontra
        rw [List.map_cons, List.nodup_cons] at hnd
        exact hnd.1 (hcontra ▸ List.mem_map_of_mem Prod.fst ht)
      rw [List.find?_cons_of_neg _ (by simp [hxne])]
      exact ih (by rw [List.map_cons, List.nodup_cons] at hnd; exact hnd.2) ht

/-- Helper: lookup after setEntity at the written key. -/
theorem get_entity_setEntity_self (sm : SceneManager) (k0 : Nat)
    (f : Entity → Entity) :
    (sm.setEntity k0 f).get_entity k0 = (sm.get_entity k0).map f := by
  unfold SceneManager.setEntity SceneManager.get_entity
  dsimp only
  rw [List.find?_map]
  have hp : ((fun p : Nat × Entity => p.1 == k0) ∘
        (fun p => if p.1 = k0 then (p.1, f p.2) else p)) =
      (fun p : Nat × Entity => p.1 == k0) := by
    funext p
    by_cases h : p.1 = k0 <;> simp [h]
  rw [hp]
  rcases hf : sm.entities.find? (fun p => p.1 == k0) with _ | q
  · rw [hf]
    rfl
  · rw [hf]
    have hq1 : q.1 = k0 := by simpa using List.find?_some hf
    simp [hq1]

/-- Helper: lookup after setEntity at a different key. -/
theorem get_entity_setEntity_ne (sm : SceneManager) (k0 : Nat)
    (f : Entity → Entity) (j : Nat) (h : j ≠ k0) :
    (sm.setEntity k0 f).get_entity j = sm.get_entity j := by
  unfold SceneManager.setEntity SceneManager.get_entity
  dsimp only
  rw [List.find?_map]
  have hp : ((fun p : Nat × Entity => p.1 == j) ∘
        (fun p => if p.1 = k0 then (p.1, f p.2) else p)) =
      (fun p : Nat × Entity => p.1 == j) := by
    funext p
    by_cases hpk : p.1 = k0 <;> simp [hpk]
  rw [hp]
  rcases hf : sm.entities.find? (fun p => p.1 == j) with _ | q
  · rw [hf]
    rfl
  · rw [hf]
    have hq1 : q.1 = j := by simpa using List.find?_some hf
    have hqne : ¬ (q.1 = k0) := by rw [hq1]; exact h
    simp [hqne]

/-- Helper: setEntity preserves the key list. -/
theorem keys_setEntity (sm : SceneManager) (k0 : Nat) (f : Entity → Entity) :
    (sm.setEntity k0 f).keys = sm.keys := by
  unfold SceneManager.setEntity SceneManager.keys
  dsimp only
  rw [List.map_map]
  congr 1
  funext p
  by_cases h : p.1 = k0 <;> simp [h]

/-- Helper: setEntity with an id-preserving function preserves keyedness. -/
theorem keyed_setEntity {sm : SceneManager} (k0 : Nat) {f : Entity → Entity}
    (hid : ∀ e : Entity, (f e).id = e.id)
    (hkeyed : ∀ q ∈ sm.entities, q.2.id = q.1) :
    ∀ q ∈ (sm.setEntity k0 f).entities, q.2.id = q.1 := by
  intro q hq
  unfold SceneManager.setEntity at hq
  dsimp only at hq
  obtain ⟨p, hp, hpq⟩ := List.mem_map.mp hq
  by_cases h : p.1 = k0
  · rw [if_pos h] at hpq
    rw [← hpq]
    dsimp only
    rw [hid]
    exact hkeyed p hp
  · rw [if_neg h] at hpq
    rw [← hpq]
    exact hkeyed p hp

/-- Helper: filtering out one key leaves lookups at other keys unchanged. -/
theorem find?_key_filter_ne (l : List (Nat × Entity)) (eid j : Nat) (h : j ≠ eid) :
    (l.filter (fun p => p.1 != eid)).find? (fun p => p.1 == j) =
      l.find? (fun p => p.1 == j) := by
  induction l with
  | nil => rfl
  | cons x t ih =>
    by_cases hx : x.1 = eid
    · rw [List.filter_cons_of_neg (by simp [hx])]
      rw [List.find?_cons_of_neg _ (by simp [hx, Ne.symm h])]
      exact ih
    · rw [List.filter_cons_of_pos (by simp [hx])]
      by_cases hxj : x.1 = j
      · rw [List.find?_cons_of_pos _ (by simp [hxj]),
          List.find?_cons_of_pos _ (by simp [hxj])]
      · rw [List.find?_cons_of_neg _ (by simp [hxj]),
          List.find?_cons_of_neg _ (by simp [hxj])]
        exact ih

/-- Helper: erasing one entry leaves lookups at other keys unchanged. -/
theorem get_entity_erase_ne (sm : SceneManager) (eid j : Nat) (h : j ≠ eid) :
    ({ sm with entities := sm.entities.filter (fun p => p.1 != eid) } :
      SceneManager).get_entity j = sm.get_entity j := by
  unfold SceneManager.get_entity
  dsimp only
  rw [find?_key_filter_ne sm.entities eid j h]

/-- Helper: lookup at the erased key returns none. -/
theorem get_entity_erase_self (sm : SceneManager) (eid : Nat) :
    ({ sm with entities := sm.entities.filter (fun p => p.1 != eid) } :
      SceneManager).get_entity eid = none := by
  unfold SceneManager.get_entity
  dsimp only
  rw [Option.map_eq_none', List.find?_eq_none]
  intro q hq
  have := List.of_mem_filter hq
  simp only [bne_iff_ne, ne_eq] at this
  simp [this]

/-- Helper: erasing an entry filters its key out of the key list. -/
theorem keys_erase (sm : SceneManager) (eid : Nat) :
    ({ sm with entities := sm.entities.filter (fun p => p.1 != eid) } :
      SceneManager).keys = sm.keys.filter (fun x => x != eid) := by
  unfold SceneManager.keys
  dsimp only
  rw [List.filter_map]
  rfl

/-- Helper: erasing an entry preserves keyedness. -/
theorem keyed_erase {sm : SceneManager} (eid : Nat)
    (hkeyed : ∀ q ∈ sm.entities, q.2.id = q.1) :
    ∀ q ∈ ({ sm with entities := sm.entities.filter (fun p => p.1 != eid) } :
      SceneManager).entities, q.2.id = q.1 := by
  intro q hq
  exact hkeyed q (List.mem_of_mem_filter hq)

/-- Helper: TreeIn transports along stores that agree on the relevant lookups. -/
theorem TreeIn_congr {sm : SceneManager} {p : Option Nat} {t : ETree}
    (h : TreeIn sm p t) :
    ∀ {sm2 : SceneManager},
      (∀ d ∈ t.ids, sm2.get_entity d = sm.get_entity d) → TreeIn sm2 p t := by
  induction h with
  | node p i cs e hget hpar hch hcs ih =>
    intro sm2 hagree
    refine TreeIn.node sm2 p i cs e ?_ hpar hch ?_
    · rw [hagree i (ETree.rootId_mem_ids (ETree.node i cs))]
      exact hget
    · intro c hc
      refine ih c hc ?_
      intro d hd
      exact hagree d ((ids_sublist_of_mem_children hc i).subset hd)

/-- Helper: every id of a store-conforming tree is a key of the store. -/
theorem TreeIn_ids_subset_keys {sm : SceneManager} {p : Option Nat} {t : ETree}
    (h : TreeIn sm p t) : ∀ d ∈ t.ids, d ∈ sm.keys := by
  induction h with
  | node p i cs e hget hpar hch hcs ih =>
    intro d hd
    rw [ETree.ids_node] at hd
    rcases List.mem_cons.mp hd with hd | hd
    · subst hd
      exact get_entity_mem_keys hget
    · obtain ⟨l, hl, hdl⟩ := List.mem_flatten.mp hd
      obtain ⟨c, hc, hcl⟩ := List.mem_map.mp hl
      exact ih c hc d (hcl ▸ hdl)

/-- Helper: in a conforming tree, each node entry records the parent and the children root ids. -/
theorem TreeIn_parent_shape {sm : SceneManager} {p : Option Nat} {t : ETree}
    (h : TreeIn sm p t) :
    ∀ d ∈ t.ids, ∃ ed, sm.get_entity d = some ed ∧
      ((d = t.rootId ∧ ed.parent = p) ∨ ∃ pd ∈ t.ids, ed.parent = some pd) := by
  induction h with
  | node p i cs e hget hpar hch hcs ih =>
    intro d hd
    rw [ETree.ids_node] at hd
    rcases List.mem_cons.mp hd with hd | hd
    · subst hd
      exact ⟨e, hget, Or.inl ⟨rfl, hpar⟩⟩
    · obtain ⟨l, hl, hdl⟩ := List.mem_flatten.mp hd
      obtain ⟨c, hc, hcl⟩ := List.mem_map.mp hl
      obtain ⟨ed, hed, hshape⟩ := ih c hc d (hcl ▸ hdl)
      refine ⟨ed, hed, Or.inr ?_⟩
      rcases hshape with ⟨hdr, hp⟩ | ⟨pd, hpd, hp⟩
      · exact ⟨i, ETree.rootId_mem_ids (ETree.node i cs), hp⟩
      · refine ⟨pd, ?_, hp⟩
        exact ((ids_sublist_of_mem_children hc i).subset hpd)

/-- Helper: remove_child erases the child id from the parent entry and touches nothing else. -/
theorem remove_child_spec (sm : SceneManager) (pid cid : Nat) (pe : Entity)
    (hpe : sm.get_entity pid = some pe) (hmem : cid ∈ pe.children)
    (hne : pid ≠ cid) :
    (sm.remove_child pid cid).get_entity pid =
      some { pe with children := pe.children.erase cid } ∧
    ((sm.remove_child pid cid).get_entity cid =
      (sm.get_entity cid).map (fun c => { c with parent := none })) ∧
    (∀ j, j ≠ pid → j ≠ cid →
      (sm.remove_child pid cid).get_entity j = sm.get_entity j) ∧
    (sm.remove_child pid cid).keys = sm.keys ∧
    (sm.remove_child pid cid).root_entities = sm.root_entities ∧
    ((∀ q ∈ sm.entities, q.2.id = q.1) →
      ∀ q ∈ (sm.remove_child pid cid).entities, q.2.id = q.1) := by
  unfold SceneManager.remove_child
  rw [hpe]
  dsimp only
  rw [if_pos hmem]
  refine ⟨?_, ?_, ?_, ?_, ?_, ?_⟩
  · rw [get_entity_setEntity_self, get_entity_setEntity_ne _ _ _ _ hne, hpe]
    rfl
  · rw [get_entity_setEntity_ne _ _ _ _ (Ne.symm hne), get_entity_setEntity_self]
  · intro j hj1 hj2
    rw [get_entity_setEntity_ne _ _ _ _ hj1, get_entity_setEntity_ne _ _ _ _ hj2]
  · rw [keys_setEntity, keys_setEntity]
  · rfl
  · intro hkeyed
    exact keyed_setEntity pid (fun e => rfl)
      (keyed_setEntity cid (fun e => rfl) hkeyed)

/-- Helper: the fold of destroyFuel over a list of conforming child trees, with the behaviour of each recursive call supplied as a hypothesis. -/
theorem destroy_fold (N : Nat)
    (IH : ∀ (t : ETree) (sm : SceneManager) (pid : Nat) (pe : Entity) (fuel : Nat),
      t.ids.length ≤ N →
      (∀ q ∈ sm.entities, q.2.id = q.1) →
      sm.keys.Nodup →
      t.ids.Nodup →
      TreeIn sm (some pid) t →
      sm.get_entity pid = some pe →
      t.rootId ∈ pe.children →
      pid ∉ t.ids →
      t.ids.length ≤ fuel →
      ((SceneManager.destroyFuel fuel sm t.rootId).root_entities = sm.root_entities ∧
       (∀ d ∈ t.ids, (SceneManager.destroyFuel fuel sm t.rootId).get_entity d = none) ∧
       (SceneManager.destroyFuel fuel sm t.rootId).get_entity pid =
         some { pe with children := pe.children.erase t.rootId } ∧
       (∀ j, j ∉ t.ids → j ≠ pid →
         (SceneManager.destroyFuel fuel sm t.rootId).get_entity j = sm.get_entity j) ∧
       (∀ q ∈ (SceneManager.destroyFuel fuel sm t.rootId).entities, q.2.id = q.1) ∧
       (SceneManager.destroyFuel fuel sm t.rootId).keys.Nodup)) :
    ∀ (cs : List ETree) (rest : List Nat) (sm : SceneManager) (i0 : Nat)
      (e : Entity) (fuel : Nat),
      (∀ q ∈ sm.entities, q.2.id = q.1) →
      sm.keys.Nodup →
      ((cs.map ETree.ids).flatten).Nodup →
      (∀ c ∈ cs, TreeIn sm (some i0) c) →
      sm.get_entity i0 = some e →
      e.children = rest ++ cs.map ETree.rootId →
      (∀ c ∈ cs, ETree.rootId c ∉ rest) →
      i0 ∉ (cs.map ETree.ids).flatten →
      (∀ c ∈ cs, c.ids.length ≤ N) →
      (∀ c ∈ cs, c.ids.length ≤ fuel) →
      (((cs.map ETree.rootId).foldl
          (fun s c => SceneManager.destroyFuel fuel s c) sm).root_entities =
         sm.root_entities ∧
       (∀ d ∈ (cs.map ETree.ids).flatten,
         ((cs.map ETree.rootId).foldl
           (fun s c => SceneManager.destroyFuel fuel s c) sm).get_entity d = none) ∧
       ((cs.map ETree.rootId).foldl
           (fun s c => SceneManager.destroyFuel fuel s c) sm).get_entity i0 =
         some { e with children := rest } ∧
       (∀ j, j ∉ (cs.map ETree.ids).flatten → j ≠ i0 →
         ((cs.map ETree.rootId).foldl
           (fun s c => SceneManager.destroyFuel fuel s c) sm).get_entity j =
           sm.get_entity j) ∧
       (∀ q ∈ ((cs.map ETree.rootId).foldl
           (fun s c => SceneManager.destroyFuel fuel s c) sm).entities,
         q.2.id = q.1) ∧
       ((cs.map ETree.rootId).foldl
           (fun s c => SceneManager.destroyFuel fuel s c) sm).keys.Nodup) := by
  intro cs
  induction cs with
  | nil =>
    intro rest sm i0 e fuel hkeyed hnd hndf htrees hget hch hrest hi0 hN hfuel
    refine ⟨rfl, by simp, ?_, fun j hj1 hj2 => rfl, hkeyed, hnd⟩
    rw [List.map_nil, List.foldl_nil, hget]
    rw [List.map_nil, List.append_nil] at hch
    rw [← hch]
  | cons c cs' ih =>
    intro rest sm i0 e fuel hkeyed hnd hndf htrees hget hch hrest hi0 hN hfuel
    rw [List.map_cons, List.flatten_cons] at hndf hi0
    have hndc : c.ids.Nodup := (List.nodup_append.mp hndf).1
    have hndcs' : ((cs'.map ETree.ids).flatten).Nodup := (List.nodup_append.mp hndf).2.1
    have hdisj : ∀ d ∈ c.ids, d ∉ (cs'.map ETree.ids).flatten := by
      intro d hd hd2
      exact (List.nodup_append.mp hndf).2.2 hd hd2
    have hi0c : i0 ∉ c.ids := fun h => hi0 (List.mem_append.mpr (Or.inl h))
    have hi0cs' : i0 ∉ (cs'.map ETree.ids).flatten :=
      fun h => hi0 (List.mem_append.mpr (Or.inr h))
    have hroot_mem : c.rootId ∈ e.children := by
      rw [hch, List.map_cons]
      exact List.mem_append.mpr (Or.inr (List.mem_cons_self _ _))
    have hIHc := IH c sm i0 e fuel (hN c (List.mem_cons_self c cs')) hkeyed hnd hndc
      (htrees c (List.mem_cons_self c cs')) hget hroot_mem hi0c
      (hfuel c (List.mem_cons_self c cs'))
    obtain ⟨hroots1, hnone1, hgi1, hunch1, hkeyed1, hnd1⟩ := hIHc
    have hch1 : (e.children.erase c.rootId) = rest ++ cs'.map ETree.rootId := by
      rw [hch, List.map_cons]
      rw [List.erase_append_right _ (hrest c (List.mem_cons_self c cs'))]
      congr 1
      exact List.erase_cons_head c.rootId (cs'.map ETree.rootId)
    set sm1 := SceneManager.destroyFuel fuel sm c.rootId with hsm1
    have htrees' : ∀ c2 ∈ cs', TreeIn sm1 (some i0) c2 := by
      intro c2 hc2
      refine TreeIn_congr (htrees c2 (List.mem_cons_of_mem c hc2)) ?_
      intro d hd
      have hdflat : d ∈ (cs'.map ETree.ids).flatten :=
        List.mem_flatten.mpr ⟨c2.ids, List.mem_map_of_mem ETree.ids hc2, hd⟩
      refine hunch1 d (fun hdc => hdisj d hdc hdflat) ?_
      intro hdi
      exact hi0cs' (hdi ▸ hdflat)
    have hih := ih rest sm1 i0 { e with children := rest ++ cs'.map ETree.rootId }
      fuel hkeyed1 hnd1 hndcs' htrees'
      (by rw [hgi1, hch1]) rfl
      (fun c2 hc2 => hrest c2 (List.mem_cons_of_mem c hc2)) hi0cs'
      (fun c2 hc2 => hN c2 (List.mem_cons_of_mem c hc2))
      (fun c2 hc2 => hfuel c2 (List.mem_cons_of_mem c hc2))
    obtain ⟨hroots2, hnone2, hgi2, hunch2, hkeyed2, hnd2⟩ := hih
    rw [List.map_cons, List.foldl_cons]
    refine ⟨hroots2.trans hroots1, ?_, ?_, ?_, hkeyed2, hnd2⟩
    · intro d hd
      rcases List.mem_append.mp hd with hdc | hdcs
      · rw [hunch2 d (fun h => hdisj d hdc h) (fun h => hi0c (h ▸ hdc))]
        exact hnone1 d hdc
      · exact hnone2 d hdcs
    · exact hgi2
    · intro j hj1 hj2
      have hj1c : j ∉ c.ids := fun h => hj1 (List.mem_append.mpr (Or.inl h))
      have hj1cs : j ∉ (cs'.map ETree.ids).flatten :=
        fun h => hj1 (List.mem_append.mpr (Or.inr h))
      rw [hunch2 j hj1cs hj2]
      exact hunch1 j hj1c hj2

/-- Helper: inversion principle for TreeIn at a node. -/
theorem TreeIn_inv {sm : SceneManager} {p : Option Nat} {t : ETree}
    (h : TreeIn sm p t) :
    ∀ (i : Nat) (cs : List ETree), t = ETree.node i cs →
      ∃ e, sm.get_entity i = some e ∧ e.parent = p ∧
        e.children = cs.map ETree.rootId ∧ ∀ c ∈ cs, TreeIn sm (some i) c := by
  induction h with
  | node p i cs e hget hpar hch hcs ih =>
    intro i2 cs2 heq
    injection heq with h1 h2
    subst h1 h2
    exact ⟨e, hget, hpar, hch, hcs⟩

/-- Helper: with enough fuel, destroyFuel on a conforming tree whose root has a parent removes exactly the tree ids, erases the root id from the parent entry children, and preserves keyedness, nodup keys and the root list. -/
theorem destroyFuel_subtree :
    ∀ (N : Nat) (t : ETree) (sm : SceneManager) (pid : Nat) (pe : Entity)
      (fuel : Nat),
      t.ids.length ≤ N →
      (∀ q ∈ sm.entities, q.2.id = q.1) →
      sm.keys.Nodup →
      t.ids.Nodup →
      TreeIn sm (some pid) t →
      sm.get_entity pid = some pe →
      t.rootId ∈ pe.children →
      pid ∉ t.ids →
      t.ids.length ≤ fuel →
      ((SceneManager.destroyFuel fuel sm t.rootId).root_entities = sm.root_entities ∧
       (∀ d ∈ t.ids, (SceneManager.destroyFuel fuel sm t.rootId).get_entity d = none) ∧
       (SceneManager.destroyFuel fuel sm t.rootId).get_entity pid =
         some { pe with children := pe.children.erase t.rootId } ∧
       (∀ j, j ∉ t.ids → j ≠ pid →
         (SceneManager.destroyFuel fuel sm t.rootId).get_entity j = sm.get_entity j) ∧
       (∀ q ∈ (SceneManager.destroyFuel fuel sm t.rootId).entities, q.2.id = q.1) ∧
       (SceneManager.destroyFuel fuel sm t.rootId).keys.Nodup) := by
  intro N
  induction N with
  | zero =>
    intro t sm pid pe fuel hlen
    exact absurd (List.length_eq_zero.mp (Nat.le_zero.mp hlen)) (ETree.ids_ne_nil t)
  | succ N ihN =>
    intro t sm pid pe fuel hlen hkeyed hnd hndt htree hpe hmem hpid hfuel
    rcases t with ⟨i0, cs⟩
    have hids : (ETree.node i0 cs).ids = i0 :: (cs.map ETree.ids).flatten :=
      ETree.ids_node i0 cs
    have hroot : (ETree.node i0 cs).rootId = i0 := rfl
    rw [hroot] at hmem ⊢
    rw [hids] at hlen hndt hpid hfuel ⊢
    have hi0nf : i0 ∉ (cs.map ETree.ids).flatten := (List.nodup_cons.mp hndt).1
    have hndf : ((cs.map ETree.ids).flatten).Nodup := (List.nodup_cons.mp hndt).2
    have hpidne : pid ≠ i0 := fun h => hpid (h ▸ List.mem_cons_self i0 _)
    have hpidnf : pid ∉ (cs.map ETree.ids).flatten :=
      fun h => hpid (List.mem_cons_of_mem i0 h)
    rcases fuel with _ | f
    · simp at hfuel
    obtain ⟨e0, hget, hpar, hch, hcs⟩ := TreeIn_inv htree i0 cs rfl
    · have hchildlen : ∀ c ∈ cs, c.ids.length ≤ N := by
        intro c hc
        have := child_ids_length_lt hc i0
        rw [ETree.ids_node] at this
        simp only [List.length_cons] at this hlen
        omega
      have hchildfuel : ∀ c ∈ cs, c.ids.length ≤ f := by
        intro c hc
        have := child_ids_length_lt hc i0
        rw [ETree.ids_node] at this
        simp only [List.length_cons] at this hfuel
        omega
      have hfold := destroy_fold N ihN cs [] sm i0 e0 f hkeyed hnd hndf hcs hget
        (by rw [hch]; rfl) (fun c hc => List.not_mem_nil c.rootId) hi0nf
        hchildlen hchildfuel
      obtain ⟨hroots1, hnone1, hgi1, hunch1, hkeyed1, hnd1⟩ := hfold
      have hpe1 : ((cs.map ETree.rootId).foldl
          (fun s c => SceneManager.destroyFuel f s c) sm).get_entity pid =
          some pe := by
        rw [hunch1 pid hpidnf hpidne]
        exact hpe
      have hbind : (((cs.map ETree.rootId).foldl
          (fun s c => SceneManager.destroyFuel f s c) sm).get_entity i0).bind
          Entity.parent = some pid := by
        rw [hgi1]
        simpa using hpar
      obtain ⟨hrc1, hrc2, hrc3, hrc4, hrc5, hrc6⟩ := remove_child_spec
        ((cs.map ETree.rootId).foldl (fun s c => SceneManager.destroyFuel f s c) sm)
        pid i0 pe hpe1 hmem hpidne
      have key : SceneManager.destroyFuel (f + 1) sm i0 =
          { ((cs.map ETree.rootId).foldl
              (fun s c => SceneManager.destroyFuel f s c) sm).remove_child pid i0 with
            entities := (((cs.map ETree.rootId).foldl
              (fun s c => SceneManager.destroyFuel f s c) sm).remove_child pid
                i0).entities.filter (fun p => p.1 != i0) } := by
        simp only [SceneManager.destroyFuel]
        rw [hget]
        dsimp only
        rw [hch, hbind]
      rw [key]
      set smF := (cs.map ETree.rootId).foldl
        (fun s c => SceneManager.destroyFuel f s c) sm with hsmF
      refine ⟨?_, ?_, ?_, ?_, ?_, ?_⟩
      · show (smF.remove_child pid i0).root_entities = sm.root_entities
        rw [hrc5, hroots1]
      · intro d hd
        rcases List.mem_cons.mp hd with hd | hd
        · rw [hd]
          exact get_entity_erase_self (smF.remove_child pid i0) i0
        · have hdne : d ≠ i0 := fun h => hi0nf (h ▸ hd)
          have hdnp : d ≠ pid := fun h => hpidnf (h ▸ hd)
          rw [get_entity_erase_ne _ _ _ hdne, hrc3 d hdnp hdne]
          exact hnone1 d hd
      · rw [get_entity_erase_ne _ _ _ hpidne, hrc1]
      · intro j hj1 hj2
        have hjne : j ≠ i0 := fun h => hj1 (h ▸ List.mem_cons_self i0 _)
        have hjnf : j ∉ (cs.map ETree.ids).flatten :=
          fun h => hj1 (List.mem_cons_of_mem i0 h)
        rw [get_entity_erase_ne _ _ _ hjne, hrc3 j hj2 hjne]
        exact hunch1 j hjnf hjne
      · exact keyed_erase i0 (hrc6 hkeyed1)
      · rw [keys_erase]
        exact (List.Nodup.filter _ (hrc4 ▸ hnd1))

/-- Helper: destroyFuel on a conforming tree whose root is parentless removes exactly the tree ids and erases the root id from the root list. -/
theorem destroyFuel_root (t : ETree) (sm : SceneManager) (fuel : Nat)
    (hkeyed : ∀ q ∈ sm.entities, q.2.id = q.1)
    (hnd : sm.keys.Nodup) (hndt : t.ids.Nodup)
    (htree : TreeIn sm none t) (hroot_mem : t.rootId ∈ sm.root_entities)
    (hfuel : t.ids.length ≤ fuel) :
    ((SceneManager.destroyFuel fuel sm t.rootId).root_entities =
       sm.root_entities.erase t.rootId ∧
     (∀ d ∈ t.ids, (SceneManager.destroyFuel fuel sm t.rootId).get_entity d = none) ∧
     (∀ j, j ∉ t.ids →
       (SceneManager.destroyFuel fuel sm t.rootId).get_entity j = sm.get_entity j) ∧
     (∀ q ∈ (SceneManager.destroyFuel fuel sm t.rootId).entities, q.2.id = q.1) ∧
     (SceneManager.destroyFuel fuel sm t.rootId).keys.Nodup) := by
  rcases t with ⟨i0, cs⟩
  have hids : (ETree.node i0 cs).ids = i0 :: (cs.map ETree.ids).flatten :=
    ETree.ids_node i0 cs
  have hroot : (ETree.node i0 cs).rootId = i0 := rfl
  rw [hroot] at hroot_mem ⊢
  rw [hids] at hndt hfuel ⊢
  have hi0nf : i0 ∉ (cs.map ETree.ids).flatten := (List.nodup_cons.mp hndt).1
  have hndf : ((cs.map ETree.ids).flatten).Nodup := (List.nodup_cons.mp hndt).2
  rcases fuel with _ | f
  · simp at hfuel
  obtain ⟨e0, hget, hpar, hch, hcs⟩ := TreeIn_inv htree i0 cs rfl
  have hchildlen : ∀ c ∈ cs, c.ids.length ≤ (ETree.node i0 cs).ids.length := by
    intro c hc
    exact (child_ids_length_lt hc i0).le
  have hchildfuel : ∀ c ∈ cs, c.ids.length ≤ f := by
    intro c hc
    have := child_ids_length_lt hc i0
    rw [ETree.ids_node] at this
    simp only [List.length_cons] at this hfuel
    omega
  have hfold := destroy_fold (ETree.node i0 cs).ids.length
    (destroyFuel_subtree (ETree.node i0 cs).ids.length) cs [] sm i0 e0 f
    hkeyed hnd hndf hcs hget (by rw [hch]; rfl)
    (fun c hc => List.not_mem_nil c.rootId) hi0nf hchildlen hchildfuel
  obtain ⟨hroots1, hnone1, hgi1, hunch1, hkeyed1, hnd1⟩ := hfold
  have hbind : (((cs.map ETree.rootId).foldl
      (fun s c => SceneManager.destroyFuel f s c) sm).get_entity i0).bind
      Entity.parent = none := by
    rw [hgi1]
    simpa using hpar
  set smF := (cs.map ETree.rootId).foldl
    (fun s c => SceneManager.destroyFuel f s c) sm with hsmF
  have hmemF : i0 ∈ smF.root_entities := by
    rw [hroots1]
    exact hroot_mem
  have key : SceneManager.destroyFuel (f + 1) sm i0 =
      { { smF with root_entities := smF.root_entities.erase i0 } with
        entities := smF.entities.filter (fun p => p.1 != i0) } := by
    simp only [SceneManager.destroyFuel]
    rw [hget]
    dsimp only
    rw [hch, hbind]
    dsimp only
    rw [if_pos hmemF]
  rw [key]
  have hgettransfer : ∀ j,
      ({ { smF with root_entities := smF.root_entities.erase i0 } with
        entities := smF.entities.filter (fun p => p.1 != i0) } :
        SceneManager).get_entity j =
      ({ smF with entities := smF.entities.filter (fun p => p.1 != i0) } :
        SceneManager).get_entity j := fun j => rfl
  refine ⟨?_, ?_, ?_, ?_, ?_⟩
  · show smF.root_entities.erase i0 = sm.root_entities.erase i0
    rw [hroots1]
  · intro d hd
    rw [hgettransfer]
    rcases List.mem_cons.mp hd with hd | hd
    · rw [hd]
      exact get_entity_erase_self smF i0
    · have hdne : d ≠ i0 := fun h => hi0nf (h ▸ hd)
      rw [get_entity_erase_ne _ _ _ hdne]
      exact hnone1 d hd
  · intro j hj
    have hjne : j ≠ i0 := fun h => hj (h ▸ List.mem_cons_self i0 _)
    have hjnf : j ∉ (cs.map ETree.ids).flatten :=
      fun h => hj (List.mem_cons_of_mem i0 h)
    rw [hgettransfer, get_entity_erase_ne _ _ _ hjne]
    exact hunch1 j hjnf hjne
  · exact keyed_erase i0 hkeyed1
  · show ({ smF with entities := smF.entities.filter (fun p => p.1 != i0) } :
        SceneManager).keys.Nodup
    rw [keys_erase]
    exact List.Nodup.filter _ hnd1

/-- Helper: the id list of a forest member is a sublist of the forest id list. -/
theorem ids_sublist_forest {u : ETree} {F : List ETree} (hu : u ∈ F) :
    u.ids.Sublist (forestIds F) :=
  List.sublist_flatten_of_mem (List.mem_map_of_mem ETree.ids hu)

/-- Helper: nodup forest ids give nodup root ids. -/
theorem roots_nodup {F : List ETree} (hnd : (forestIds F).Nodup) :
    (F.map ETree.rootId).Nodup := by
  induction F with
  | nil => exact List.nodup_nil
  | cons v F' ih =>
    unfold forestIds at hnd
    rw [List.map_cons, List.flatten_cons] at hnd
    rw [List.map_cons, List.nodup_cons]
    constructor
    · intro hmem
      obtain ⟨u2, hu2, hru2⟩ := List.mem_map.mp hmem
      have h1 : v.rootId ∈ v.ids := ETree.rootId_mem_ids v
      have h2 : v.rootId ∈ forestIds F' := by
        have := ETree.rootId_mem_ids u2
        rw [hru2] at this
        exact (ids_sublist_forest hu2).subset this
      exact (List.nodup_append.mp hnd).2.2 h1 h2
    · exact ih (List.nodup_append.mp hnd).2.1

/-- Helper: a proper subtree root has a parent inside the tree; the tree root itself is returned otherwise. -/
theorem subtree_parent_facts {t u : ETree} (hsub : SubtreeIn t u) :
    ∀ (sm : SceneManager) (p : Option Nat), TreeIn sm p u → u.ids.Nodup →
    (t = u ∨ ∃ (pid : Nat) (pe : Entity), TreeIn sm (some pid) t ∧
      sm.get_entity pid = some pe ∧ t.rootId ∈ pe.children ∧ pid ∉ t.ids) := by
  induction hsub with
  | refl => exact fun sm p htree hnd => Or.inl rfl
  | step i cs c hc hsub2 ih =>
    intro sm p htree hnd
    obtain ⟨e, hget, hpar, hch, hcs⟩ := TreeIn_inv htree i cs rfl
    have hndn := hnd
    rw [ETree.ids_node, List.nodup_cons] at hndn
    have hndc : c.ids.Nodup :=
      ((List.sublist_flatten_of_mem (List.mem_map_of_mem ETree.ids hc)).nodup hndn.2)
    rcases ih sm (some i) (hcs c hc) hndc with hteq | ⟨pid, pe, h1, h2, h3, h4⟩
    · right
      refine ⟨i, e, ?_, hget, ?_, ?_⟩
      · rw [hteq]
        exact hcs c hc
      · rw [hch, hteq]
        exact List.mem_map_of_mem ETree.rootId hc
      · intro hmem
        apply hndn.1
        have : t.ids.Sublist (cs.map ETree.ids).flatten := by
          rw [hteq]
          exact List.sublist_flatten_of_mem (List.mem_map_of_mem ETree.ids hc)
        exact this.subset hmem
    · exact Or.inr ⟨pid, pe, h1, h2, h3, h4⟩

/-- C9: destroying an entity recursively removes it and every descendant.  In a well-formed scene whose live entities form the id forest F, destroying the root of any subtree t makes lookup return none for every id of t, excludes those ids from every subsequent all_active enumeration, detaches them from the children list of every surviving entity, and removes them from the root list. -/
theorem destroy_entity_removes_descendants (sm : SceneManager) (F : List ETree)
    (hwf : SceneWF sm F) (u : ETree) (hu : u ∈ F) (t : ETree)
    (hsub : SubtreeIn t u) :
    (∀ d ∈ t.ids, (sm.destroy_entity t.rootId).get_entity d = none) ∧
    (∀ d ∈ t.ids, ∀ x ∈ (sm.destroy_entity t.rootId).all_active, x.id ≠ d) ∧
    (∀ d ∈ t.ids, ∀ q ∈ (sm.destroy_entity t.rootId).entities, d ∉ q.2.children) ∧
    (∀ d ∈ t.ids, d ∉ (sm.destroy_entity t.rootId).root_entities) := by
  obtain ⟨hkeyed, hndk, hndF, hroots, htrees, hcnd, hcp⟩ := hwf
  have htreeu := htrees u hu
  have hndu : u.ids.Nodup := (ids_sublist_forest hu).nodup hndF
  have hndt : t.ids.Nodup := (subtree_ids_sublist hsub).nodup hndu
  have hde : sm.destroy_entity t.rootId =
      SceneManager.destroyFuel sm.entities.length sm t.rootId := rfl
  rw [hde]
  have hkeyslen : sm.keys.length = sm.entities.length := by
    unfold SceneManager.keys
    exact List.length_map sm.entities Prod.fst
  rcases subtree_parent_facts hsub sm none htreeu hndu with hteq |
    ⟨pid, pe, htt, hpe, hmem, hpidnt⟩
  · subst hteq
    have hfuel : t.ids.length ≤ sm.entities.length := by
      have h1 := (List.subperm_of_subset hndt
        (fun d hd => TreeIn_ids_subset_keys htreeu d hd)).length_le
      omega
    obtain ⟨hroots', hnone, hunch, hkeyed', hndk'⟩ :=
      destroyFuel_root t sm sm.entities.length hkeyed hndk hndt htreeu
        (by rw [hroots]; exact List.mem_map_of_mem ETree.rootId hu) hfuel
    refine ⟨hnone, ?_, ?_, ?_⟩
    · intro d hd x hx heq
      unfold SceneManager.all_active at hx
      obtain ⟨q, hq, hqx⟩ := List.mem_map.mp (List.mem_of_mem_filter hx)
      have hqid : q.2.id = q.1 := hkeyed' q hq
      have hdk : d ∉ (SceneManager.destroyFuel sm.entities.length sm t.rootId).keys :=
        (get_entity_eq_none_iff _ d).mp (hnone d hd)
      apply hdk
      have : q.1 = d := by rw [← hqid, hqx, heq]
      rw [← this]
      exact List.mem_map_of_mem Prod.fst hq
    · intro d hd q hq hdch
      have hq1 := get_entity_of_mem hndk' hq
      by_cases hqt : q.1 ∈ t.ids
      · rw [hnone q.1 hqt] at hq1
        exact Option.noConfusion hq1
      · rw [hunch q.1 hqt] at hq1
        obtain ⟨ed, hed, hedp⟩ := hcp q.1 q.2 hq1 d hdch
        obtain ⟨ed2, hed2, hshape⟩ := TreeIn_parent_shape htreeu d hd
        have heq2 : ed = ed2 := by
          rw [hed] at hed2
          exact Option.some.inj hed2
        rcases hshape with ⟨hdr, hpar0⟩ | ⟨pd, hpd, hpar0⟩
        · rw [heq2, hpar0] at hedp
          exact Option.noConfusion hedp
        · rw [heq2, hpar0] at hedp
          exact hqt ((Option.some.inj hedp) ▸ hpd)
    · intro d hd hdroots
      rw [hroots'] at hdroots
      by_cases hdr : d = t.rootId
      · subst hdr
        have hndr : sm.root_entities.Nodup := by
          rw [hroots]
          exact roots_nodup hndF
        exact hndr.not_mem_erase hdroots
      · have hdm := List.mem_of_mem_erase hdroots
        rw [hroots] at hdm
        obtain ⟨u2, hu2, hru2⟩ := List.mem_map.mp hdm
        rcases u2 with ⟨j, cs2⟩
        have hjd : j = d := hru2
        subst hjd
        obtain ⟨e2, hget2, hpar2, hch2, hcs2⟩ :=
          TreeIn_inv (htrees (ETree.node j cs2) hu2) j cs2 rfl
        obtain ⟨ed2, hed2, hshape⟩ := TreeIn_parent_shape htreeu j hd
        have heq2 : e2 = ed2 := by
          rw [hget2] at hed2
          exact Option.some.inj hed2
        rcases hshape with ⟨hdr2, hpar0⟩ | ⟨pd, hpd, hpar0⟩
        · exact hdr hdr2
        · rw [heq2, hpar0] at hpar2
          exact Option.noConfusion hpar2
  · have hfuel : t.ids.length ≤ sm.entities.length := by
      have h1 := (List.subperm_of_subset hndt
        (fun d hd => TreeIn_ids_subset_keys htt d hd)).length_le
      omega
    obtain ⟨hroots', hnone, hgpid, hunch, hkeyed', hndk'⟩ :=
      destroyFuel_subtree t.ids.length t sm pid pe sm.entities.length le_rfl
        hkeyed hndk hndt htt hpe hmem hpidnt hfuel
    refine ⟨hnone, ?_, ?_, ?_⟩
    · intro d hd x hx heq
      unfold SceneManager.all_active at hx
      obtain ⟨q, hq, hqx⟩ := List.mem_map.mp (List.mem_of_mem_filter hx)
      have hqid : q.2.id = q.1 := hkeyed' q hq
      have hdk : d ∉ (SceneManager.destroyFuel sm.entities.length sm t.rootId).keys :=
        (get_entity_eq_none_iff _ d).mp (hnone d hd)
      apply hdk
      have : q.1 = d := by rw [← hqid, hqx, heq]
      rw [← this]
      exact List.mem_map_of_mem Prod.fst hq
    · intro d hd q hq hdch
      have hq1 := get_entity_of_mem hndk' hq
      by_cases hqt : q.1 ∈ t.ids
      · rw [hnone q.1 hqt] at hq1
        exact Option.noConfusion hq1
      · by_cases hqp : q.1 = pid
        · rw [hqp, hgpid] at hq1
          have hq2 : q.2 = { pe with children := pe.children.erase t.rootId } :=
            (Option.some.inj hq1).symm
          rw [hq2] at hdch
          have hdpe : d ∈ pe.children := List.mem_of_mem_erase hdch
          obtain ⟨ed, hed, hedp⟩ := hcp pid pe hpe d hdpe
          obtain ⟨ed2, hed2, hshape⟩ := TreeIn_parent_shape htt d hd
          have heq2 : ed = ed2 := by
            rw [hed] at hed2
            exact Option.some.inj hed2
          rcases hshape with ⟨hdr, hpar0⟩ | ⟨pd, hpd, hpar0⟩
          · rw [hdr] at hdch
            exact (hcnd pid pe hpe).not_mem_erase hdch
          · rw [heq2, hpar0] at hedp
            exact hpidnt ((Option.some.inj hedp) ▸ hpd)
        · rw [hunch q.1 hqt hqp] at hq1
          obtain ⟨ed, hed, hedp⟩ := hcp q.1 q.2 hq1 d hdch
          obtain ⟨ed2, hed2, hshape⟩ := TreeIn_parent_shape htt d hd
          have heq2 : ed = ed2 := by
            rw [hed] at hed2
            exact Option.some.inj hed2
          rcases hshape with ⟨hdr, hpar0⟩ | ⟨pd, hpd, hpar0⟩
          · rw [heq2, hpar0] at hedp
            exact hqp (Option.some.inj hedp).symm
          · rw [heq2, hpar0] at hedp
            exact hqt ((Option.some.inj hedp) ▸ hpd)
    · intro d hd hdroots
      rw [hroots'] at hdroots
      rw [hroots] at hdroots
      obtain ⟨u2, hu2, hru2⟩ := List.mem_map.mp hdroots
      rcases u2 with ⟨j, cs2⟩
      have hjd : j = d := hru2
      subst hjd
      obtain ⟨e2, hget2, hpar2, hch2, hcs2⟩ :=
        TreeIn_inv (htrees (ETree.node j cs2) hu2) j cs2 rfl
      obtain ⟨ed2, hed2, hshape⟩ := TreeIn_parent_shape htt j hd
      have heq2 : e2 = ed2 := by
        rw [hget2] at hed2
        exact Option.some.inj hed2
      rcases hshape with ⟨hdr2, hpar0⟩ | ⟨pd, hpd, hpar0⟩
      · rw [heq2, hpar0] at hpar2
        exact Option.noConfusion hpar2
      · rw [heq2, hpar0] at hpar2
        exact Option.noConfusion hpar2


/-- Helper: the three-entity chain scene is well formed with respect to its id forest. -/
theorem chainScene_wf : SceneWF chainScene [chainTree1] := by
  constructor
  · intro q hq
    simp only [chainScene, List.mem_cons, List.not_mem_nil, or_false] at hq
    rcases hq with h | h | h <;> subst h <;> rfl
  · show (chainScene.keys).Nodup
    have : chainScene.keys = [1, 2, 3] := rfl
    rw [this]
    decide
  · show (forestIds [chainTree1]).Nodup
    have : forestIds [chainTree1] = [1, 2, 3] := by
      simp [forestIds, chainTree1, chainTree2, chainTree3, ETree.ids_node]
    rw [this]
    decide
  · rfl
  · intro u hu
    simp only [List.mem_singleton] at hu
    subst hu
    refine TreeIn.node chainScene none 1 [chainTree2] sceneE1 rfl rfl rfl ?_
    intro c hc
    simp only [List.mem_singleton] at hc
    subst hc
    refine TreeIn.node chainScene (some 1) 2 [chainTree3] sceneE2 rfl rfl rfl ?_
    intro c2 hc2
    simp only [List.mem_singleton] at hc2
    subst hc2
    refine TreeIn.node chainScene (some 2) 3 [] sceneE3 rfl rfl rfl ?_
    intro c3 hc3
    simp at hc3
  · intro k e h
    have hk := get_entity_mem_keys h
    have hkeys : chainScene.keys = [1, 2, 3] := rfl
    rw [hkeys] at hk
    simp only [List.mem_cons, List.not_mem_nil, or_false] at hk
    rcases hk with h1 | h1 | h1 <;> subst h1
    · have he : sceneE1 = e := Option.some.inj h
      rw [← he]
      decide
    · have he : sceneE2 = e := Option.some.inj h
      rw [← he]
      decide
    · have he : sceneE3 = e := Option.some.inj h
      rw [← he]
      decide
  · intro k e h d hd
    have hk := get_entity_mem_keys h
    have hkeys : chainScene.keys = [1, 2, 3] := rfl
    rw [hkeys] at hk
    simp only [List.mem_cons, List.not_mem_nil, or_false] at hk
    rcases hk with h1 | h1 | h1 <;> subst h1
    · have he : sceneE1 = e := Option.some.inj h
      rw [← he] at hd
      have : d = 2 := by
        have : sceneE1.children = [2] := rfl
        rw [this] at hd
        simpa using hd
      subst this
      exact ⟨sceneE2, rfl, rfl⟩
    · have he : sceneE2 = e := Option.some.inj h
      rw [← he] at hd
      have : d = 3 := by
        have : sceneE2.children = [3] := rfl
        rw [this] at hd
        simpa using hd
      subst this
      exact ⟨sceneE3, rfl, rfl⟩
    · have he : sceneE3 = e := Option.some.inj h
      rw [← he] at hd
      have : sceneE3.children = [] := rfl
      rw [this] at hd
      simp at hd

/-- Witness for C9: destroying entity 2 in the chain scene 1 -> 2 -> 3 removes entities 2 and 3 from lookups, active enumeration, children lists and the root list. -/
theorem destroy_entity_removes_descendants_witness :
    (chainScene.destroy_entity 2).get_entity 2 = none ∧
    (chainScene.destroy_entity 2).get_entity 3 = none ∧
    (∀ x ∈ (chainScene.destroy_entity 2).all_active, x.id ≠ 2 ∧ x.id ≠ 3) ∧
    (∀ q ∈ (chainScene.destroy_entity 2).entities,
      2 ∉ q.2.children ∧ 3 ∉ q.2.children) ∧
    2 ∉ (chainScene.destroy_entity 2).root_entities ∧
    3 ∉ (chainScene.destroy_entity 2).root_entities := by
  have hsub : SubtreeIn chainTree2 chainTree1 := by
    refine SubtreeIn.step chainTree2 1 [chainTree2] chainTree2 ?_ (SubtreeIn.refl _)
    exact List.mem_singleton_self _
  obtain ⟨h1, h2, h3, h4⟩ := destroy_entity_removes_descendants chainScene
    [chainTree1] chainScene_wf chainTree1 (List.mem_singleton_self _) chainTree2 hsub
  have hids : chainTree2.ids = [2, 3] := by
    simp [chainTree2, chainTree3, ETree.ids_node]
  have hm2 : (2 : Nat) ∈ chainTree2.ids := by rw [hids]; simp
  have hm3 : (3 : Nat) ∈ chainTree2.ids := by rw [hids]; simp
  exact ⟨h1 2 hm2, h1 3 hm3,
    fun x hx => ⟨h2 2 hm2 x hx, h2 3 hm3 x hx⟩,
    fun q hq => ⟨h3 2 hm2 q hq, h3 3 hm3 q hq⟩,
    h4 2 hm2, h4 3 hm3⟩
